import Mathlib

/-!
Verification of the TON HTLC escrow contract
(`src/contracts/ton/escrow.fc`, `helpers.fc`, `error-codes.fc`).

The embedding follows the FunC source:
* TVM cells and slices are modelled bit-exactly (`TCell`, `Slice`); the
  parsing primitives `load_uint`, `load_ref`, `load_coins`, `load_msg_addr`
  mirror the TVM instructions the source uses.  A failed load (cell
  underflow) is the TVM exit code 9.
* `load_msg_addr` is modelled for the address shapes this system produces
  (`addr_none$00` and `addr_std$10` without anycast); the escrow never
  inspects an address beyond carrying it and testing slice emptiness.
* TVM dictionaries (`udict_set` / `udict_get?`) are association lists with
  overwrite-on-set semantics.
* `string_hash` is a host SHA-256 primitive, modelled as an abstract
  function parameter `H : Nat → Nat`; `sha256_int256` applies it to the
  256-bit preimage, exactly as the source hashes the 32-byte big-endian
  encoding of the preimage.
* Exceptions abort the whole message and the host transaction rolls every
  pending mutation back, so every operation is a total function returning
  `Except Nat (newState × effects)`; an `error` result leaves the persisted
  state unchanged by definition of the transaction model.
-/

namespace TonEscrow

/-- Big-endian interpretation of a bit string as a natural number. -/
def bitsToNat (bs : List Bool) : Nat :=
  bs.foldl (fun acc b => 2 * acc + (if b then 1 else 0)) 0

/-- Big-endian `w`-bit encoding of a natural number (low bits kept). -/
def natToBits : Nat → Nat → List Bool
  | 0, _ => []
  | w + 1, n => natToBits w (n / 2) ++ [decide (n % 2 = 1)]

/-- A TVM cell: up to 1023 data bits and up to four reference cells.
The size limits are never reached by the escrow's messages and are not
modelled. -/
inductive TCell where
  | mk : List Bool → List TCell → TCell

/-- A TVM slice: the unread remainder of a cell being parsed. -/
structure Slice where
  bits : List Bool
  refs : List TCell

/-- `begin_parse` of a cell. -/
def TCell.toSlice : TCell → Slice
  | .mk bs rs => ⟨bs, rs⟩

/-- `slice_empty?`: no data bits and no references remain. -/
def sliceEmpty (s : Slice) : Bool :=
  s.bits.isEmpty && s.refs.isEmpty

/-- TVM exit code for a cell underflow (reading past the end of a slice). -/
def EXIT_CELL_UNDERFLOW : Nat := 9

/-- `load_uint n`: read `n` bits big-endian; underflow if fewer remain. -/
def loadUint (s : Slice) (n : Nat) : Option (Nat × Slice) :=
  if n ≤ s.bits.length then
    some (bitsToNat (s.bits.take n), ⟨s.bits.drop n, s.refs⟩)
  else none

/-- `load_ref`: read the next reference cell. -/
def loadRef (s : Slice) : Option (TCell × Slice) :=
  match s.refs with
  | [] => none
  | c :: rest => some (c, ⟨s.bits, rest⟩)

/-- `load_coins`: a 4-bit byte-length followed by that many bytes. -/
def loadCoins (s : Slice) : Option (Nat × Slice) :=
  match loadUint s 4 with
  | none => none
  | some (l, s1) => loadUint s1 (8 * l)

/-- A message address is kept as the raw bits `load_msg_addr` consumed. -/
abbrev Addr := List Bool

/-- `load_msg_addr`, restricted to the two address shapes the escrow's
messages use: `addr_none$00` (2 bits) and `addr_std$10` with no anycast
(2 + 1 + 8 + 256 = 267 bits).  The loaded address is returned as the
slice of bits it occupied, as LDMSGADDR does. -/
def loadMsgAddr (s : Slice) : Option (Addr × Slice) :=
  match s.bits with
  | false :: false :: rest => some ([false, false], ⟨rest, s.refs⟩)
  | true :: false :: false :: rest =>
      if 264 ≤ rest.length then
        some (true :: false :: false :: rest.take 264, ⟨rest.drop 264, s.refs⟩)
      else none
  | _ => none

/-- A standard workchain/hash address in wire form. -/
def stdAddr (wc a : Nat) : Addr :=
  true :: false :: false :: (natToBits 8 wc ++ natToBits 256 a)

/-! ### Dictionaries (`udict_set` / `udict_get?`) -/

/-- `udict_get?`: look a key up. -/
def dictGet {α : Type} (d : List (Nat × α)) (k : Nat) : Option α :=
  match d with
  | [] => none
  | (k', v) :: rest => if k' = k then some v else dictGet rest k

/-- `udict_set`: insert, overwriting any previous binding of the key. -/
def dictSet {α : Type} (d : List (Nat × α)) (k : Nat) (v : α) : List (Nat × α) :=
  (k, v) :: d.filter (fun p => p.1 != k)

/-! ### Operation and error codes (`error-codes.fc`) -/

def OP_COMPLETE_SWAP : Nat := 2271560481
def OP_REFUND_SWAP : Nat := 2882400018
def OP_INITIALIZE : Nat := 1
def OP_DEPOSIT_NOTIFICATION : Nat := 3735928559
/-- The standard jetton transfer-notification opcode 0x7362d09c
(hard-coded in `recv_internal`). -/
def OP_JETTON_NOTIFY : Nat := 1935855772

def ERR_INVALID_AMOUNT : Nat := 65521
def ERR_SWAP_COMPLETED : Nat := 65523
def ERR_INVALID_PREIMAGE : Nat := 65524
def ERR_TIMELOCK_EXPIRED : Nat := 65525
def ERR_SWAP_ALREADY_COMPLETED_REFUND : Nat := 65526
def ERR_TIMELOCK_NOT_EXPIRED : Nat := 65527
def ERR_SWAP_NOT_FOUND : Nat := 65520
def ERR_ALREADY_INITIALIZED : Nat := 65519
def ERR_NOT_INITIALIZED : Nat := 110
def ERR_NO_REFS : Nat := 405
def ERR_INSUFFICIENT_BITS : Nat := 408
def ERR_INVALID_FORWARD_OP : Nat := 409
def ERR_INSUFFICIENT_VALUE : Nat := 801
def ERR_EMPTY_TARGET : Nat := 802
def ERR_EMPTY_WALLET : Nat := 804
def ERR_MSG_BUILD : Nat := 805
def ERR_BODY_BUILD : Nat := 806
def ERR_SEND_FAILED : Nat := 807

/-! ### Data model (`escrow.fc` storage and swap records) -/

/-- A swap record as serialized by `buildSwap` and read back by `parseSwap`
(`helpers.fc`).  The codec stores exactly these fields in this order, so the
dictionary is modelled as holding the record itself. -/
structure SwapRecord where
  initiator : Addr
  recipient : Addr
  tokenAmount : Nat
  hashLock : Nat
  timeLock : Nat
  isCompleted : Bool
deriving DecidableEq

/-- The contract's persistent state (the `ctx_*` globals of `escrow.fc`). -/
structure ContractState where
  ctx_id : Nat
  ctx_jetton_wallet : Addr
  ctx_swap_counter : Nat
  ctx_swaps : List (Nat × SwapRecord)
  ctx_hashlock_map : List (Nat × Nat)
  ctx_initialized : Bool
deriving DecidableEq

/-- `load_data`: pristine (empty-cell) storage yields the default state with
`ctx_jetton_wallet = my_address()`; otherwise the serialized state is read
back (the `save_data`/`load_data` field-by-field round trip is the identity
and is abstracted by `some st`). -/
def load_data (myAddr : Addr) : Option ContractState → ContractState
  | none => ⟨0, myAddr, 0, [], [], false⟩
  | some st => st

/-! ### Helpers (`helpers.fc`) -/

/-- `sha256_int256`: SHA-256 of the 32-byte big-endian encoding of the
256-bit preimage.  The host hash primitive `string_hash` is abstracted as
the parameter `H`. -/
def sha256_int256 (H : Nat → Nat) (preimage : Nat) : Nat := H preimage

/-- The outbound jetton-transfer message `sendJettonTransfer` builds: a
transfer of `amount` tokens to `target`, sent to the configured jetton
wallet, with `target` also the response destination. -/
structure JettonTransfer where
  wallet : Addr
  target : Addr
  amount : Nat
deriving DecidableEq

/-- Fixed fee constants of `sendJettonTransfer`. -/
def FWD_FEE : Nat := 50000000
def GAS_CONSUMPTION : Nat := 10000000
def MIN_TONS_FOR_STORAGE : Nat := 10000000
def FORWARD_TON_AMOUNT : Nat := 10000000

/-- `forward_ton_amount + 2 * gas_consumption + fwd_fee + min_tons_for_storage`. -/
def REQUIRED_VALUE : Nat :=
  FORWARD_TON_AMOUNT + 2 * GAS_CONSUMPTION + FWD_FEE + MIN_TONS_FOR_STORAGE

/-- The body of `sendJettonTransfer`'s outer `try` block: the four explicit
validations in source order, then the message build.  The only build step
that can fail on the source's value ranges is `store_coins(tokenAmount)`
(amounts of 2^120 or more do not fit the coins encoding), reported as
`ERR_BODY_BUILD`; the first builder and the send itself cannot fail for the
messages this contract constructs. -/
def sendJettonTransferInner (jettonWallet target : Addr) (tokenAmount msg_value : Nat) :
    Except Nat JettonTransfer :=
  if msg_value ≤ REQUIRED_VALUE then .error ERR_INSUFFICIENT_VALUE
  else if target.isEmpty then .error ERR_EMPTY_TARGET
  else if tokenAmount = 0 then .error ERR_INVALID_AMOUNT
  else if jettonWallet.isEmpty then .error ERR_EMPTY_WALLET
  else if 2 ^ 120 ≤ tokenAmount then .error ERR_BODY_BUILD
  else .ok ⟨jettonWallet, target, tokenAmount⟩

/-- `sendJettonTransfer`: the whole body runs inside
`try { ... } catch (err) { throw(ERR_SEND_FAILED); }`, so every failure —
including the four distinct validation throws — escapes the function as
`ERR_SEND_FAILED`. -/
def sendJettonTransfer (jettonWallet target : Addr) (tokenAmount msg_value : Nat) :
    Except Nat JettonTransfer :=
  match sendJettonTransferInner jettonWallet target tokenAmount msg_value with
  | .ok t => .ok t
  | .error _ => .error ERR_SEND_FAILED

/-! ### Operations (`escrow.fc`) -/

/-- `initialize_storage`: fails with `ERR_ALREADY_INITIALIZED` while the
latch is set (before reading any input); otherwise reads the jetton-wallet
address from the body, assigns `random() % 2^32` (the host randomness is the
parameter `rand`), zeroes the counter, empties both maps and sets the
latch. -/
def initialize_storage (rand : Nat) (in_msg_body : Slice) (st : ContractState) :
    Except Nat ContractState :=
  if st.ctx_initialized then .error ERR_ALREADY_INITIALIZED
  else
    match loadMsgAddr in_msg_body with
    | none => .error EXIT_CELL_UNDERFLOW
    | some (wallet, _) =>
        .ok ⟨rand % 4294967296, wallet, 0, [], [], true⟩

/-- `storeSwap`: insert the new record under key `ctx_swap_counter`, point
`ctx_hashlock_map[hashLock]` at that id, and increment the counter. -/
def storeSwap (initiator recipient : Addr) (tokenAmount hashLock timeLock : Nat)
    (st : ContractState) : ContractState :=
  { st with
    ctx_swaps := dictSet st.ctx_swaps st.ctx_swap_counter
      ⟨initiator, recipient, tokenAmount, hashLock, timeLock, false⟩
    ctx_hashlock_map := dictSet st.ctx_hashlock_map hashLock st.ctx_swap_counter
    ctx_swap_counter := st.ctx_swap_counter + 1 }

/-- `refundSwap`: initialization gate, parse `swapId(256)`, then the three
checks in source order (`SwapNotFound`, `SwapAlreadyCompletedRefund`,
`TimelockNotExpired`), the `isCompleted := 1` update, and the outbound
transfer of the locked amount back to the initiator.  A thrown error aborts
the transaction, so an `error` result carries no state change. -/
def refundSwap (now msg_value : Nat) (in_msg_body : Slice) (st : ContractState) :
    Except Nat (ContractState × JettonTransfer) :=
  if st.ctx_initialized = false then .error ERR_NOT_INITIALIZED
  else
    match loadUint in_msg_body 256 with
    | none => .error EXIT_CELL_UNDERFLOW
    | some (swapId, _) =>
      match dictGet st.ctx_swaps swapId with
      | none => .error ERR_SWAP_NOT_FOUND
      | some r =>
        if r.isCompleted then .error ERR_SWAP_ALREADY_COMPLETED_REFUND
        else if now < r.timeLock then .error ERR_TIMELOCK_NOT_EXPIRED
        else
          match sendJettonTransfer st.ctx_jetton_wallet r.initiator r.tokenAmount msg_value with
          | .error e => .error e
          | .ok tr =>
              .ok ({ st with
                      ctx_swaps := dictSet st.ctx_swaps swapId { r with isCompleted := true } },
                   tr)

/-- `completeSwap`: initialization gate, parse `swapId(256)` and
`preimage(256)`, then the four checks in source order (`SwapNotFound`,
`SwapCompleted`, `InvalidPreimage`, `TimelockExpired` — completion requires
`now() < timeLock`), the `isCompleted := 1` update, and the outbound
transfer of the locked amount to the recipient. -/
def completeSwap (H : Nat → Nat) (now msg_value : Nat) (in_msg_body : Slice)
    (st : ContractState) : Except Nat (ContractState × JettonTransfer) :=
  if st.ctx_initialized = false then .error ERR_NOT_INITIALIZED
  else
    match loadUint in_msg_body 256 with
    | none => .error EXIT_CELL_UNDERFLOW
    | some (swapId, b1) =>
      match loadUint b1 256 with
      | none => .error EXIT_CELL_UNDERFLOW
      | some (preimage, _) =>
        match dictGet st.ctx_swaps swapId with
        | none => .error ERR_SWAP_NOT_FOUND
        | some r =>
          if r.isCompleted then .error ERR_SWAP_COMPLETED
          else if ¬ (sha256_int256 H preimage = r.hashLock) then .error ERR_INVALID_PREIMAGE
          else if r.timeLock ≤ now then .error ERR_TIMELOCK_EXPIRED
          else
            match sendJettonTransfer st.ctx_jetton_wallet r.recipient r.tokenAmount msg_value with
            | .error e => .error e
            | .ok tr =>
                .ok ({ st with
                        ctx_swaps := dictSet st.ctx_swaps swapId { r with isCompleted := true } },
                     tr)

/-- `depositNotification`: initialization gate, then on the forward-payload
slice (positioned after the forward op): `depositAmount(128)` which must
equal the notified amount (`ERR_INVALID_AMOUNT`), the depositor address, at
least two remaining refs (`ERR_NO_REFS`), the recipient address from the
first ref, and `hashLock(256) | timeLock(64)` from the second ref; finally
`storeSwap`. -/
def depositNotification (f : Slice) (amount : Nat) (st : ContractState) :
    Except Nat ContractState :=
  if st.ctx_initialized = false then .error ERR_NOT_INITIALIZED
  else
    match loadUint f 128 with
    | none => .error EXIT_CELL_UNDERFLOW
    | some (depositAmount, f1) =>
      if depositAmount ≠ amount then .error ERR_INVALID_AMOUNT
      else
        match loadMsgAddr f1 with
        | none => .error EXIT_CELL_UNDERFLOW
        | some (depositor, f2) =>
          if f2.refs.length < 2 then .error ERR_NO_REFS
          else
            match loadRef f2 with
            | none => .error EXIT_CELL_UNDERFLOW
            | some (recipientRef, f3) =>
              match loadMsgAddr recipientRef.toSlice with
              | none => .error EXIT_CELL_UNDERFLOW
              | some (recipient, _) =>
                match loadRef f3 with
                | none => .error EXIT_CELL_UNDERFLOW
                | some (locksRef, _) =>
                  match loadUint locksRef.toSlice 256 with
                  | none => .error EXIT_CELL_UNDERFLOW
                  | some (hashLock, ls1) =>
                    match loadUint ls1 64 with
                    | none => .error EXIT_CELL_UNDERFLOW
                    | some (timeLock, _) =>
                      .ok (storeSwap depositor recipient depositAmount hashLock timeLock st)

/-- The `op == 0x7362d09c` branch of `recv_internal`: parse the standard
jetton transfer-notification body (`queryId(64)`, `amount(coins)`,
`from(address)`), read the one-bit `Either` discriminator of the forward
payload (0 = the remaining inline slice, 1 = a referenced cell), require at
least 32 payload bits (`ERR_INSUFFICIENT_BITS`), require the forward op to
be `DEPOSIT_NOTIFICATION` (`ERR_INVALID_FORWARD_OP`), then run
`depositNotification` on the rest of the payload. -/
def handleJettonNotification (body : Slice) (st : ContractState) :
    Except Nat ContractState :=
  match loadUint body 64 with
  | none => .error EXIT_CELL_UNDERFLOW
  | some (_, b1) =>
    match loadCoins b1 with
    | none => .error EXIT_CELL_UNDERFLOW
    | some (tokenAmount, b2) =>
      match loadMsgAddr b2 with
      | none => .error EXIT_CELL_UNDERFLOW
      | some (_, b3) =>
        match loadUint b3 1 with
        | none => .error EXIT_CELL_UNDERFLOW
        | some (is_ref, b4) =>
          match (if is_ref = 1 then (loadRef b4).map (fun p => p.1.toSlice) else some b4) with
          | none => .error EXIT_CELL_UNDERFLOW
          | some f =>
            if f.bits.length < 32 then .error ERR_INSUFFICIENT_BITS
            else
              match loadUint f 32 with
              | none => .error EXIT_CELL_UNDERFLOW
              | some (f_op, f1) =>
                if f_op ≠ OP_DEPOSIT_NOTIFICATION then .error ERR_INVALID_FORWARD_OP
                else depositNotification f1 tokenAmount st

/-- `recv_internal`, from the point where the contract's state is in scope:
empty bodies are ignored; `INITIALIZE` dispatches before the initialization
gate; every other code first requires the latch
(`ERR_NOT_INITIALIZED`); `COMPLETE_SWAP`, `REFUND_SWAP` and the jetton
notification dispatch to their handlers; any other code falls through with
no error and no `save_data`, leaving the persisted state unchanged.
`rand` models the host randomness consumed by `initialize_storage` and
`now` the host clock; the result carries the persisted state and the
outbound transfer, if one was sent. -/
def recv_internal (H : Nat → Nat) (rand now msg_value : Nat) (in_msg_body : Slice)
    (st : ContractState) : Except Nat (ContractState × Option JettonTransfer) :=
  if sliceEmpty in_msg_body then .ok (st, none)
  else
    match loadUint in_msg_body 32 with
    | none => .error EXIT_CELL_UNDERFLOW
    | some (op, body) =>
      if op = OP_INITIALIZE then
        (initialize_storage rand body st).map (fun st' => (st', none))
      else if st.ctx_initialized = false then .error ERR_NOT_INITIALIZED
      else if op = OP_COMPLETE_SWAP then
        (completeSwap H now msg_value body st).map (fun p => (p.1, some p.2))
      else if op = OP_REFUND_SWAP then
        (refundSwap now msg_value body st).map (fun p => (p.1, some p.2))
      else if op = OP_JETTON_NOTIFY then
        (handleJettonNotification body st).map (fun st' => (st', none))
      else .ok (st, none)

/-! ### Public getters (`escrow.fc`) -/

def get_id (st : ContractState) : Nat := st.ctx_id

def get_swap_counter (st : ContractState) : Nat := st.ctx_swap_counter

def get_jetton_wallet (st : ContractState) : Addr := st.ctx_jetton_wallet

def is_initialized (st : ContractState) : Bool := st.ctx_initialized

def has_swap (st : ContractState) (swapId : Nat) : Nat :=
  match dictGet st.ctx_swaps swapId with
  | some _ => 1
  | none => 0

def get_swap (st : ContractState) (swapId : Nat) : Except Nat SwapRecord :=
  match dictGet st.ctx_swaps swapId with
  | none => .error ERR_SWAP_NOT_FOUND
  | some r => .ok r

/-- `get_swap_by_hashlock`: resolve through the secondary index, then the
primary table; either miss is `ERR_SWAP_NOT_FOUND`. -/
def get_swap_by_hashlock (st : ContractState) (hashlock : Nat) :
    Except Nat (Nat × SwapRecord) :=
  match dictGet st.ctx_hashlock_map hashlock with
  | none => .error ERR_SWAP_NOT_FOUND
  | some swapId =>
    match dictGet st.ctx_swaps swapId with
    | none => .error ERR_SWAP_NOT_FOUND
    | some r => .ok (swapId, r)

/-! ### Reachability -/

/-- The state of a freshly deployed contract: `load_data` on pristine
storage. -/
def initState (myAddr : Addr) : ContractState := load_data myAddr none

/-- `Reachable H s t`: state `t` arises from state `s` by zero or more
successfully processed inbound messages (a failed message rolls the
transaction back and leaves the state unchanged, so only successful steps
change state).  The hash primitive `H` is fixed; randomness, clock, message
value and body are arbitrary at every step. -/
inductive Reachable (H : Nat → Nat) (s : ContractState) : ContractState → Prop
  | refl : Reachable H s s
  | step {t u : ContractState} {tr : Option JettonTransfer}
      (rand now msg_value : Nat) (body : Slice) :
      Reachable H s t →
      recv_internal H rand now msg_value body t = .ok (u, tr) →
      Reachable H s u

/-! ### Canonical message bodies -/

/-- The body of a `Complete` message after the operation code:
`swapId(256) | preimage(256)`. -/
def mkCompleteBody (swapId preimage : Nat) : Slice :=
  ⟨natToBits 256 swapId ++ natToBits 256 preimage, []⟩

/-- The body of a `Refund` message after the operation code: `swapId(256)`. -/
def mkRefundBody (swapId : Nat) : Slice :=
  ⟨natToBits 256 swapId, []⟩

/-- The body of an `Initialize` message after the operation code: the
token-wallet address. -/
def mkInitBody (wc a : Nat) : Slice :=
  ⟨stdAddr wc a, []⟩

/-! ### Encoding lemmas -/

theorem natToBits_length (w n : Nat) : (natToBits w n).length = w := by
  induction w generalizing n with
  | zero => rfl
  | succ w ih => simp [natToBits, ih]

theorem bitsToNat_foldl (bs : List Bool) (acc : Nat) :
    bs.foldl (fun a b => 2 * a + (if b then 1 else 0)) acc
      = acc * 2 ^ bs.length + bitsToNat bs := by
  induction bs generalizing acc with
  | nil => simp [bitsToNat]
  | cons b bs ih =>
      simp only [List.foldl_cons, List.length_cons, bitsToNat]
      rw [ih, ih (2 * 0 + if b then 1 else 0)]
      ring

theorem bitsToNat_append (xs ys : List Bool) :
    bitsToNat (xs ++ ys) = bitsToNat xs * 2 ^ ys.length + bitsToNat ys := by
  unfold bitsToNat
  rw [List.foldl_append, bitsToNat_foldl]
  rfl

theorem bitsToNat_natToBits {w n : Nat} (h : n < 2 ^ w) :
    bitsToNat (natToBits w n) = n := by
  induction w generalizing n with
  | zero =>
      have hn : n = 0 := by simp only [pow_zero] at h; omega
      subst hn; rfl
  | succ w ih =>
      have hdiv : n / 2 < 2 ^ w := by
        rw [Nat.div_lt_iff_lt_mul (by norm_num)]
        calc n < 2 ^ (w + 1) := h
        _ = 2 ^ w * 2 := by ring
      rw [natToBits, bitsToNat_append, ih hdiv]
      have hm : n % 2 = 0 ∨ n % 2 = 1 := Nat.mod_two_eq_zero_or_one n
      rcases hm with hm | hm <;>
        simp [bitsToNat, hm] <;> omega

theorem loadUint_encoded {w n : Nat} (h : n < 2 ^ w) (rest : List Bool)
    (refs : List TCell) :
    loadUint ⟨natToBits w n ++ rest, refs⟩ w = some (n, ⟨rest, refs⟩) := by
  have hlen : (natToBits w n ++ rest).length = w + rest.length := by
    simp [natToBits_length]
  show (if w ≤ (natToBits w n ++ rest).length then
          some (bitsToNat ((natToBits w n ++ rest).take w),
                (⟨(natToBits w n ++ rest).drop w, refs⟩ : Slice))
        else none) = some (n, ⟨rest, refs⟩)
  rw [if_pos (by omega)]
  rw [List.take_left' (natToBits_length w n), List.drop_left' (natToBits_length w n),
    bitsToNat_natToBits h]

theorem stdAddr_length (wc a : Nat) : (stdAddr wc a).length = 267 := by
  simp [stdAddr, natToBits_length]

theorem loadMsgAddr_stdAddr {wc a : Nat} (rest : List Bool) (refs : List TCell) :
    loadMsgAddr ⟨stdAddr wc a ++ rest, refs⟩ = some (stdAddr wc a, ⟨rest, refs⟩) := by
  have hlen : (natToBits 8 wc ++ natToBits 256 a).length = 264 := by
    simp [natToBits_length]
  show (if 264 ≤ ((natToBits 8 wc ++ natToBits 256 a) ++ rest).length then
          some (true :: false :: false :: ((natToBits 8 wc ++ natToBits 256 a) ++ rest).take 264,
                (⟨((natToBits 8 wc ++ natToBits 256 a) ++ rest).drop 264, refs⟩ : Slice))
        else none) = some (stdAddr wc a, ⟨rest, refs⟩)
  rw [if_pos (by rw [List.length_append, hlen]; omega)]
  rw [List.take_left' hlen, List.drop_left' hlen]
  rfl

theorem stdAddr_ne_nil (wc a : Nat) : (stdAddr wc a).isEmpty = false := by
  simp [stdAddr]

/-! ### Dictionary lemmas -/

theorem dictGet_dictSet_self {α : Type} (d : List (Nat × α)) (k : Nat) (v : α) :
    dictGet (dictSet d k v) k = some v := by
  simp [dictSet, dictGet]

theorem dictGet_filter_ne {α : Type} (d : List (Nat × α)) (k k' : Nat) (h : k' ≠ k) :
    dictGet (d.filter (fun p => p.1 != k)) k' = dictGet d k' := by
  induction d with
  | nil => rfl
  | cons p d ih =>
      obtain ⟨a, b⟩ := p
      by_cases hak : a = k
      · subst hak
        rw [List.filter_cons_of_neg (by simp)]
        rw [ih]
        simp only [dictGet]
        rw [if_neg (fun hc => h hc.symm)]
      · rw [List.filter_cons_of_pos (by simp [hak])]
        simp only [dictGet]
        rw [ih]

theorem dictGet_dictSet_ne {α : Type} (d : List (Nat × α)) (k k' : Nat) (v : α)
    (h : k' ≠ k) : dictGet (dictSet d k v) k' = dictGet d k' := by
  simp only [dictSet, dictGet]
  rw [if_neg (fun hc => h hc.symm)]
  exact dictGet_filter_ne d k k' h

/-! ### Outbound transfer characterization -/

/-- The conditions under which `sendJettonTransfer` actually sends: value
strictly above the fixed minimum, non-empty target and wallet slices, a
positive amount that fits the coins encoding. -/
def TransferOk (jettonWallet target : Addr) (tokenAmount msg_value : Nat) : Prop :=
  REQUIRED_VALUE < msg_value ∧ target.isEmpty = false ∧ tokenAmount ≠ 0 ∧
    jettonWallet.isEmpty = false ∧ tokenAmount < 2 ^ 120

instance (w t : Addr) (a v : Nat) : Decidable (TransferOk w t a v) := by
  unfold TransferOk; infer_instance

theorem sendJettonTransfer_ok_iff (w t : Addr) (a v : Nat) :
    sendJettonTransfer w t a v = .ok ⟨w, t, a⟩ ↔ TransferOk w t a v := by
  unfold sendJettonTransfer sendJettonTransferInner TransferOk
  split_ifs with h1 h2 h3 h4 h5
  · exact ⟨fun hc => by simp at hc, fun hok => absurd hok.1 (by omega)⟩
  · exact ⟨fun hc => by simp at hc,
      fun hok => by rw [hok.2.1] at h2; exact Bool.noConfusion h2⟩
  · exact ⟨fun hc => by simp at hc, fun hok => absurd h3 hok.2.2.1⟩
  · exact ⟨fun hc => by simp at hc,
      fun hok => by rw [hok.2.2.2.1] at h4; exact Bool.noConfusion h4⟩
  · exact ⟨fun hc => by simp at hc, fun hok => absurd hok.2.2.2.2 (by omega)⟩
  · exact ⟨fun _ => ⟨by omega, by simpa using h2, h3, by simpa using h4, by omega⟩,
      fun _ => rfl⟩

theorem sendJettonTransfer_error (w t : Addr) (a v : Nat)
    (h : ¬ TransferOk w t a v) : sendJettonTransfer w t a v = .error ERR_SEND_FAILED := by
  unfold TransferOk at h
  unfold sendJettonTransfer sendJettonTransferInner
  split_ifs with h1 h2 h3 h4 h5
  · rfl
  · rfl
  · rfl
  · rfl
  · rfl
  · exact absurd ⟨by omega, by simpa using h2, h3, by simpa using h4, by omega⟩ h

/-! ### State invariants and the shape of successful steps -/

/-- Every stored swap id is below the counter (so the next deposit cannot
overwrite an existing record). -/
def SwapKeysBounded (st : ContractState) : Prop :=
  ∀ k r, dictGet st.ctx_swaps k = some r → k < st.ctx_swap_counter

/-- Every hash-lock index entry references an id present in `swaps`. -/
def HashIndexOK (st : ContractState) : Prop :=
  ∀ k v, dictGet st.ctx_hashlock_map k = some v → ∃ r, dictGet st.ctx_swaps v = some r

/-- Before initialization both tables are empty and the counter is zero. -/
def PreInitEmpty (st : ContractState) : Prop :=
  st.ctx_initialized = false →
    st.ctx_swaps = [] ∧ st.ctx_hashlock_map = [] ∧ st.ctx_swap_counter = 0

/-- Every successful inbound message changes the state in one of four ways:
not at all, by initializing, by storing one fresh swap, or by completing or
refunding one pending swap. -/
def StepShape (st st' : ContractState) : Prop :=
  st' = st
  ∨ (st.ctx_initialized = false ∧ st'.ctx_initialized = true ∧
      st'.ctx_swap_counter = 0 ∧ st'.ctx_swaps = [] ∧ st'.ctx_hashlock_map = [])
  ∨ (st.ctx_initialized = true ∧
      ∃ dep rec amt hl tl, st' = storeSwap dep rec amt hl tl st)
  ∨ (st.ctx_initialized = true ∧
      ∃ k r, dictGet st.ctx_swaps k = some r ∧ r.isCompleted = false ∧
        st' = { st with ctx_swaps := dictSet st.ctx_swaps k { r with isCompleted := true } })

theorem initialize_storage_ok_shape {rand : Nat} {body : Slice} {st st' : ContractState}
    (h : initialize_storage rand body st = .ok st') :
    st.ctx_initialized = false ∧
      ∃ w, st' = ⟨rand % 4294967296, w, 0, [], [], true⟩ := by
  unfold initialize_storage at h
  split at h
  · simp at h
  · split at h
    · simp at h
    · next hinit _ w _ _ =>
        refine ⟨by simpa using hinit, w, ?_⟩
        simpa using h.symm

theorem completeSwap_ok_shape {H : Nat → Nat} {now mv : Nat} {body : Slice}
    {st st' : ContractState} {tr : JettonTransfer}
    (h : completeSwap H now mv body st = .ok (st', tr)) :
    st.ctx_initialized = true ∧
      ∃ k r, dictGet st.ctx_swaps k = some r ∧ r.isCompleted = false ∧
        st' = { st with ctx_swaps := dictSet st.ctx_swaps k { r with isCompleted := true } } := by
  unfold completeSwap at h
  split at h
  · simp at h
  next hinit =>
  split at h
  · simp at h
  next swapId b1 hload1 =>
  split at h
  · simp at h
  next preimage b2 hload2 =>
  split at h
  · simp at h
  next r hget =>
  split at h
  · simp at h
  next hcompleted =>
  split at h
  · simp at h
  next hhash =>
  split at h
  · simp at h
  next htime =>
  split at h
  · simp at h
  next tr' hsend =>
  refine ⟨by simpa using hinit, swapId, r, hget, by simpa using hcompleted, ?_⟩
  simp only [Except.ok.injEq, Prod.mk.injEq] at h
  exact h.1.symm

theorem refundSwap_ok_shape {now mv : Nat} {body : Slice}
    {st st' : ContractState} {tr : JettonTransfer}
    (h : refundSwap now mv body st = .ok (st', tr)) :
    st.ctx_initialized = true ∧
      ∃ k r, dictGet st.ctx_swaps k = some r ∧ r.isCompleted = false ∧
        st' = { st with ctx_swaps := dictSet st.ctx_swaps k { r with isCompleted := true } } := by
  unfold refundSwap at h
  split at h
  · simp at h
  next hinit =>
  split at h
  · simp at h
  next swapId b1 hload1 =>
  split at h
  · simp at h
  next r hget =>
  split at h
  · simp at h
  next hcompleted =>
  split at h
  · simp at h
  next htime =>
  split at h
  · simp at h
  next tr' hsend =>
  refine ⟨by simpa using hinit, swapId, r, hget, by simpa using hcompleted, ?_⟩
  simp only [Except.ok.injEq, Prod.mk.injEq] at h
  exact h.1.symm

theorem depositNotification_ok_shape {f : Slice} {amount : Nat}
    {st st' : ContractState} (h : depositNotification f amount st = .ok st') :
    st.ctx_initialized = true ∧
      ∃ dep rec hl tl, st' = storeSwap dep rec amount hl tl st := by
  unfold depositNotification at h
  split at h
  · simp at h
  next hinit =>
  split at h
  · simp at h
  next depositAmount f1 hload1 =>
  split at h
  · simp at h
  next hamount =>
  split at h
  · simp at h
  next depositor f2 hload2 =>
  split at h
  · simp at h
  next hrefs =>
  split at h
  · simp at h
  next recipientRef f3 href1 =>
  split at h
  · simp at h
  next recipient rs hload3 =>
  split at h
  · simp at h
  next locksRef f4 href2 =>
  split at h
  · simp at h
  next hashLock ls1 hload4 =>
  split at h
  · simp at h
  next timeLock ls2 hload5 =>
  have heqamt : depositAmount = amount := by
    by_contra hc
    exact hamount hc
  subst heqamt
  exact ⟨by simpa using hinit,
    depositor, recipient, hashLock, timeLock, by simpa using h.symm⟩

theorem handleJettonNotification_ok_shape {body : Slice} {st st' : ContractState}
    (h : handleJettonNotification body st = .ok st') :
    st.ctx_initialized = true ∧
      ∃ dep rec amt hl tl, st' = storeSwap dep rec amt hl tl st := by
  unfold handleJettonNotification at h
  split at h
  · simp at h
  next q b1 hload1 =>
  split at h
  · simp at h
  next amt b2 hload2 =>
  split at h
  · simp at h
  next from_addr b3 hload3 =>
  split at h
  · simp at h
  next is_ref b4 hload4 =>
  split at h
  · simp at h
  next f hf =>
  split at h
  · simp at h
  next hbits =>
  split at h
  · simp at h
  next f_op f1 hload5 =>
  split at h
  · simp at h
  next hfop =>
  obtain ⟨hi, dep, rec, hl, tl, hshape⟩ := depositNotification_ok_shape h
  exact ⟨hi, dep, rec, amt, hl, tl, hshape⟩

theorem recv_internal_ok_shape {H : Nat → Nat} {rand now mv : Nat} {body : Slice}
    {st st' : ContractState} {tr : Option JettonTransfer}
    (h : recv_internal H rand now mv body st = .ok (st', tr)) :
    StepShape st st' := by
  unfold recv_internal at h
  split at h
  · left
    simp only [Except.ok.injEq, Prod.mk.injEq] at h
    exact h.1.symm
  split at h
  · simp at h
  next op rest hload =>
  split at h
  · -- INITIALIZE
    cases hin : initialize_storage rand rest st with
    | error e => rw [hin] at h; simp [Except.map] at h
    | ok s1 =>
        rw [hin] at h
        simp only [Except.map, Except.ok.injEq, Prod.mk.injEq] at h
        obtain ⟨hs, -⟩ := h
        obtain ⟨hinit, w, hshape⟩ := initialize_storage_ok_shape hin
        right; left
        subst hs
        rw [hshape]
        exact ⟨hinit, rfl, rfl, rfl, rfl⟩
  split at h
  · simp at h
  next hinit =>
  split at h
  · -- COMPLETE_SWAP
    cases hc : completeSwap H now mv rest st with
    | error e => rw [hc] at h; simp [Except.map] at h
    | ok p =>
        obtain ⟨s1, t1⟩ := p
        rw [hc] at h
        simp only [Except.map, Except.ok.injEq, Prod.mk.injEq] at h
        obtain ⟨hs, -⟩ := h
        obtain ⟨hi, k, r, hget, hcomp, hshape⟩ := completeSwap_ok_shape hc
        right; right; right
        exact ⟨hi, k, r, hget, hcomp, by rw [← hs, hshape]⟩
  split at h
  · -- REFUND_SWAP
    cases hc : refundSwap now mv rest st with
    | error e => rw [hc] at h; simp [Except.map] at h
    | ok p =>
        obtain ⟨s1, t1⟩ := p
        rw [hc] at h
        simp only [Except.map, Except.ok.injEq, Prod.mk.injEq] at h
        obtain ⟨hs, -⟩ := h
        obtain ⟨hi, k, r, hget, hcomp, hshape⟩ := refundSwap_ok_shape hc
        right; right; right
        exact ⟨hi, k, r, hget, hcomp, by rw [← hs, hshape]⟩
  split at h
  · -- jetton notification
    cases hc : handleJettonNotification rest st with
    | error e => rw [hc] at h; simp [Except.map] at h
    | ok s1 =>
        rw [hc] at h
        simp only [Except.map, Except.ok.injEq, Prod.mk.injEq] at h
        obtain ⟨hs, -⟩ := h
        obtain ⟨hi, dep, rec, amt, hl, tl, hshape⟩ := handleJettonNotification_ok_shape hc
        right; right; left
        exact ⟨hi, dep, rec, amt, hl, tl, by rw [← hs, hshape]⟩
  · left
    simp only [Except.ok.injEq, Prod.mk.injEq] at h
    exact h.1.symm

/-! ### Preservation of the invariants across successful steps -/

theorem dictGet_dictSet_cases {α : Type} {d : List (Nat × α)} {k k' : Nat} {v r : α}
    (h : dictGet (dictSet d k v) k' = some r) :
    (k' = k ∧ r = v) ∨ (k' ≠ k ∧ dictGet d k' = some r) := by
  by_cases hk : k' = k
  · subst hk
    rw [dictGet_dictSet_self] at h
    exact Or.inl ⟨rfl, (Option.some.inj h).symm⟩
  · rw [dictGet_dictSet_ne _ _ _ _ hk] at h
    exact Or.inr ⟨hk, h⟩

theorem StepShape.preserves_initialized {st st' : ContractState} (hs : StepShape st st')
    (h : st.ctx_initialized = true) : st'.ctx_initialized = true := by
  rcases hs with rfl | ⟨h0, h1, -⟩ | ⟨-, dep, rec, amt, hl, tl, rfl⟩ | ⟨-, k, r, -, -, rfl⟩
  · exact h
  · exact h1
  · simpa [storeSwap] using h
  · simpa using h

theorem StepShape.preserves_bounded {st st' : ContractState} (hs : StepShape st st')
    (hb : SwapKeysBounded st) : SwapKeysBounded st' := by
  rcases hs with rfl | ⟨-, -, hc, hsw, -⟩ | ⟨-, dep, rec, amt, hl, tl, rfl⟩ |
      ⟨-, k0, r0, hget0, -, rfl⟩
  · exact hb
  · intro k r h
    rw [hsw] at h
    simp [dictGet] at h
  · intro k r h
    simp only [storeSwap] at h ⊢
    rcases dictGet_dictSet_cases h with ⟨rfl, -⟩ | ⟨-, hold⟩
    · omega
    · exact Nat.lt_succ_of_lt (hb _ _ hold)
  · intro k r h
    simp only at h ⊢
    rcases dictGet_dictSet_cases h with ⟨rfl, -⟩ | ⟨-, hold⟩
    · exact hb _ _ hget0
    · exact hb _ _ hold

theorem StepShape.preserves_completed {st st' : ContractState} (hs : StepShape st st')
    (hb : SwapKeysBounded st) {id : Nat} {rec : SwapRecord}
    (hget : dictGet st.ctx_swaps id = some rec) (hcomp : rec.isCompleted = true)
    (hinit : st.ctx_initialized = true) : dictGet st'.ctx_swaps id = some rec := by
  rcases hs with rfl | ⟨h0, -⟩ | ⟨-, dep, rec', amt, hl, tl, rfl⟩ | ⟨-, k0, r0, hget0, hnc, rfl⟩
  · exact hget
  · rw [hinit] at h0; exact Bool.noConfusion h0
  · simp only [storeSwap]
    rw [dictGet_dictSet_ne]
    · exact hget
    · have := hb _ _ hget
      omega
  · simp only
    rw [dictGet_dictSet_ne]
    · exact hget
    · intro hk
      subst hk
      rw [hget] at hget0
      rw [Option.some.inj hget0] at hcomp
      rw [hcomp] at hnc
      exact Bool.noConfusion hnc

theorem StepShape.preserves_hashindex {st st' : ContractState} (hs : StepShape st st')
    (hok : HashIndexOK st) : HashIndexOK st' := by
  rcases hs with rfl | ⟨-, -, -, -, hhm⟩ | ⟨-, dep, rec, amt, hl, tl, rfl⟩ |
      ⟨-, k0, r0, hget0, -, rfl⟩
  · exact hok
  · intro k v h
    rw [hhm] at h
    simp [dictGet] at h
  · intro k v h
    simp only [storeSwap] at h ⊢
    rcases dictGet_dictSet_cases h with ⟨-, rfl⟩ | ⟨-, hold⟩
    · exact ⟨_, dictGet_dictSet_self _ _ _⟩
    · obtain ⟨r0, hr0⟩ := hok _ _ hold
      by_cases hv : v = st.ctx_swap_counter
      · subst hv
        exact ⟨_, dictGet_dictSet_self _ _ _⟩
      · exact ⟨r0, by rw [dictGet_dictSet_ne _ _ _ _ hv]; exact hr0⟩
  · intro k v h
    simp only at h ⊢
    obtain ⟨r1, hr1⟩ := hok _ _ h
    by_cases hv : v = k0
    · subst hv
      exact ⟨_, dictGet_dictSet_self _ _ _⟩
    · exact ⟨r1, by rw [dictGet_dictSet_ne _ _ _ _ hv]; exact hr1⟩

theorem StepShape.preserves_preinit {st st' : ContractState} (hs : StepShape st st')
    (hp : PreInitEmpty st) : PreInitEmpty st' := by
  rcases hs with rfl | ⟨-, h1, -⟩ | ⟨hi, dep, rec, amt, hl, tl, rfl⟩ | ⟨hi, k, r, -, -, rfl⟩
  · exact hp
  · intro hc; rw [h1] at hc; exact Bool.noConfusion hc
  · intro hc
    simp only [storeSwap] at hc
    rw [hi] at hc
    exact Bool.noConfusion hc
  · intro hc
    simp only at hc
    rw [hi] at hc
    exact Bool.noConfusion hc

theorem StepShape.index_key_persists {st st' : ContractState} (hs : StepShape st st')
    (hinit : st.ctx_initialized = true) {k v : Nat}
    (h : dictGet st.ctx_hashlock_map k = some v) :
    ∃ v', dictGet st'.ctx_hashlock_map k = some v' := by
  rcases hs with rfl | ⟨h0, -⟩ | ⟨-, dep, rec, amt, hl, tl, rfl⟩ | ⟨-, k0, r0, -, -, rfl⟩
  · exact ⟨v, h⟩
  · rw [hinit] at h0; exact Bool.noConfusion h0
  · simp only [storeSwap]
    by_cases hk : k = hl
    · subst hk
      exact ⟨_, dictGet_dictSet_self _ _ _⟩
    · exact ⟨v, by rw [dictGet_dictSet_ne _ _ _ _ hk]; exact h⟩
  · exact ⟨v, h⟩

theorem reachable_completed_stable {H : Nat → Nat} {s t : ContractState}
    {id : Nat} {rec : SwapRecord} (hr : Reachable H s t)
    (hinit : s.ctx_initialized = true) (hb : SwapKeysBounded s)
    (hget : dictGet s.ctx_swaps id = some rec) (hcomp : rec.isCompleted = true) :
    t.ctx_initialized = true ∧ SwapKeysBounded t ∧ dictGet t.ctx_swaps id = some rec := by
  induction hr with
  | refl => exact ⟨hinit, hb, hget⟩
  | step rand now mv body hprev hstep ih =>
      obtain ⟨hi, hb', hg⟩ := ih
      have hs := recv_internal_ok_shape hstep
      exact ⟨hs.preserves_initialized hi, hs.preserves_bounded hb',
        hs.preserves_completed hb' hg hcomp hi⟩

theorem reachable_inv {H : Nat → Nat} {myAddr : Addr} {t : ContractState}
    (hr : Reachable H (initState myAddr) t) :
    PreInitEmpty t ∧ SwapKeysBounded t ∧ HashIndexOK t := by
  induction hr with
  | refl =>
      refine ⟨fun _ => ⟨rfl, rfl, rfl⟩, ?_, ?_⟩
      · intro k r h
        simp [initState, load_data, dictGet] at h
      · intro k v h
        simp [initState, load_data, dictGet] at h
  | step rand now mv body hprev hstep ih =>
      obtain ⟨hp, hb, hok⟩ := ih
      have hs := recv_internal_ok_shape hstep
      exact ⟨hs.preserves_preinit hp, hs.preserves_bounded hb, hs.preserves_hashindex hok⟩

/-! ### Evaluation lemmas for the operations on canonical bodies -/

theorem loadUint_encoded_exact {w n : Nat} (h : n < 2 ^ w) (refs : List TCell) :
    loadUint ⟨natToBits w n, refs⟩ w = some (n, ⟨[], refs⟩) := by
  have h' := loadUint_encoded h [] refs
  rwa [List.append_nil] at h'

theorem completeSwap_eval {H : Nat → Nat} {now mv swapId preimage : Nat}
    {st : ContractState} {r : SwapRecord}
    (hinit : st.ctx_initialized = true) (hid : swapId < 2 ^ 256)
    (hpre : preimage < 2 ^ 256) (hget : dictGet st.ctx_swaps swapId = some r) :
    completeSwap H now mv (mkCompleteBody swapId preimage) st =
      (if r.isCompleted then .error ERR_SWAP_COMPLETED
       else if ¬ (H preimage = r.hashLock) then .error ERR_INVALID_PREIMAGE
       else if r.timeLock ≤ now then .error ERR_TIMELOCK_EXPIRED
       else
         match sendJettonTransfer st.ctx_jetton_wallet r.recipient r.tokenAmount mv with
         | .error e => .error e
         | .ok tr =>
             .ok ({ st with
                     ctx_swaps := dictSet st.ctx_swaps swapId { r with isCompleted := true } },
                  tr)) := by
  unfold completeSwap mkCompleteBody
  rw [if_neg (by rw [hinit]; exact fun hc => Bool.noConfusion hc)]
  rw [loadUint_encoded hid (natToBits 256 preimage) []]
  simp only
  rw [loadUint_encoded_exact hpre []]
  simp only
  rw [hget]
  simp only [sha256_int256]

theorem refundSwap_eval {now mv swapId : Nat} {st : ContractState} {r : SwapRecord}
    (hinit : st.ctx_initialized = true) (hid : swapId < 2 ^ 256)
    (hget : dictGet st.ctx_swaps swapId = some r) :
    refundSwap now mv (mkRefundBody swapId) st =
      (if r.isCompleted then .error ERR_SWAP_ALREADY_COMPLETED_REFUND
       else if now < r.timeLock then .error ERR_TIMELOCK_NOT_EXPIRED
       else
         match sendJettonTransfer st.ctx_jetton_wallet r.initiator r.tokenAmount mv with
         | .error e => .error e
         | .ok tr =>
             .ok ({ st with
                     ctx_swaps := dictSet st.ctx_swaps swapId { r with isCompleted := true } },
                  tr)) := by
  unfold refundSwap mkRefundBody
  rw [if_neg (by rw [hinit]; exact fun hc => Bool.noConfusion hc)]
  rw [loadUint_encoded_exact hid []]
  simp only
  rw [hget]

theorem completeSwap_notfound {H : Nat → Nat} {now mv swapId preimage : Nat}
    {st : ContractState}
    (hinit : st.ctx_initialized = true) (hid : swapId < 2 ^ 256)
    (hpre : preimage < 2 ^ 256) (hget : dictGet st.ctx_swaps swapId = none) :
    completeSwap H now mv (mkCompleteBody swapId preimage) st = .error ERR_SWAP_NOT_FOUND := by
  unfold completeSwap mkCompleteBody
  rw [if_neg (by rw [hinit]; exact fun hc => Bool.noConfusion hc)]
  rw [loadUint_encoded hid (natToBits 256 preimage) []]
  simp only
  rw [loadUint_encoded_exact hpre []]
  simp only
  rw [hget]

theorem refundSwap_notfound {now mv swapId : Nat} {st : ContractState}
    (hinit : st.ctx_initialized = true) (hid : swapId < 2 ^ 256)
    (hget : dictGet st.ctx_swaps swapId = none) :
    refundSwap now mv (mkRefundBody swapId) st = .error ERR_SWAP_NOT_FOUND := by
  unfold refundSwap mkRefundBody
  rw [if_neg (by rw [hinit]; exact fun hc => Bool.noConfusion hc)]
  rw [loadUint_encoded_exact hid []]
  simp only
  rw [hget]

instance {ε α : Type} [DecidableEq ε] [DecidableEq α] : DecidableEq (Except ε α) :=
  fun a b =>
    match a, b with
    | .ok x, .ok y =>
        if h : x = y then isTrue (by rw [h]) else isFalse (fun hc => h (by cases hc; rfl))
    | .error x, .error y =>
        if h : x = y then isTrue (by rw [h]) else isFalse (fun hc => h (by cases hc; rfl))
    | .ok _, .error _ => isFalse (fun hc => by cases hc)
    | .error _, .ok _ => isFalse (fun hc => by cases hc)

theorem loadMsgAddr_stdAddr_exact {wc a : Nat} (refs : List TCell) :
    loadMsgAddr ⟨stdAddr wc a, refs⟩ = some (stdAddr wc a, ⟨[], refs⟩) := by
  have h := @loadMsgAddr_stdAddr wc a [] refs
  rwa [List.append_nil] at h

theorem loadUint_one (b : Bool) (rest : List Bool) (refs : List TCell) :
    loadUint ⟨b :: rest, refs⟩ 1 = some ((if b then 1 else 0), ⟨rest, refs⟩) := by
  unfold loadUint
  rw [if_pos (by simp)]
  simp [bitsToNat]

theorem sliceEmpty_false_of_loadUint {s : Slice} {n : Nat} {r : Nat × Slice}
    (h : loadUint s (n + 1) = some r) : sliceEmpty s = false := by
  unfold loadUint at h
  split at h
  · next hle =>
      unfold sliceEmpty
      cases hb : s.bits with
      | nil => rw [hb] at hle; simp at hle
      | cons x xs => simp
  · exact absurd h (by simp)

theorem sendJettonTransfer_ok_inv {w t : Addr} {a v : Nat} {tr : JettonTransfer}
    (h : sendJettonTransfer w t a v = .ok tr) :
    tr = ⟨w, t, a⟩ ∧ TransferOk w t a v := by
  have hok : TransferOk w t a v := by
    by_contra hc
    rw [sendJettonTransfer_error _ _ _ _ hc] at h
    exact absurd h (by simp)
  have heq := (sendJettonTransfer_ok_iff w t a v).mpr hok
  rw [heq] at h
  exact ⟨(Except.ok.inj h).symm, hok⟩

theorem storeSwap_effects (dep rec : Addr) (amt hl tl : Nat) (st : ContractState) :
    (storeSwap dep rec amt hl tl st).ctx_swap_counter = st.ctx_swap_counter + 1 ∧
    dictGet (storeSwap dep rec amt hl tl st).ctx_swaps st.ctx_swap_counter =
      some ⟨dep, rec, amt, hl, tl, false⟩ ∧
    dictGet (storeSwap dep rec amt hl tl st).ctx_hashlock_map hl = some st.ctx_swap_counter ∧
    get_swap (storeSwap dep rec amt hl tl st) st.ctx_swap_counter =
      .ok ⟨dep, rec, amt, hl, tl, false⟩ ∧
    get_swap_by_hashlock (storeSwap dep rec amt hl tl st) hl =
      .ok (st.ctx_swap_counter, ⟨dep, rec, amt, hl, tl, false⟩) := by
  refine ⟨rfl, dictGet_dictSet_self _ _ _, dictGet_dictSet_self _ _ _, ?_, ?_⟩
  · simp only [get_swap, storeSwap, dictGet_dictSet_self]
  · simp only [get_swap_by_hashlock, storeSwap, dictGet_dictSet_self]

/-- The canonical deposit forward payload after the 32-bit forward op:
`depositAmount(128) | depositor(address) | ref{recipient} | ref{hashLock(256) | timeLock(64)}`. -/
def mkDepositPayload (depAmt dwc da rwc ra hl tl : Nat) : Slice :=
  ⟨natToBits 128 depAmt ++ stdAddr dwc da,
   [TCell.mk (stdAddr rwc ra) [], TCell.mk (natToBits 256 hl ++ natToBits 64 tl) []]⟩

theorem depositNotification_amount_mismatch {depAmt amt : Nat} (restBits : List Bool)
    (refs : List TCell) {st : ContractState}
    (hinit : st.ctx_initialized = true) (hdep : depAmt < 2 ^ 128) (hne : depAmt ≠ amt) :
    depositNotification ⟨natToBits 128 depAmt ++ restBits, refs⟩ amt st =
      .error ERR_INVALID_AMOUNT := by
  unfold depositNotification
  rw [if_neg (by rw [hinit]; exact fun hc => Bool.noConfusion hc)]
  rw [loadUint_encoded hdep restBits refs]
  simp only []
  rw [if_pos hne]

theorem depositNotification_norefs {depAmt dwc da : Nat} (restBits : List Bool)
    (refs : List TCell) {st : ContractState}
    (hinit : st.ctx_initialized = true) (hdep : depAmt < 2 ^ 128)
    (hrefs : refs.length < 2) :
    depositNotification ⟨natToBits 128 depAmt ++ (stdAddr dwc da ++ restBits), refs⟩
      depAmt st = .error ERR_NO_REFS := by
  unfold depositNotification
  rw [if_neg (by rw [hinit]; exact fun hc => Bool.noConfusion hc)]
  rw [loadUint_encoded hdep (stdAddr dwc da ++ restBits) refs]
  simp only []
  rw [if_neg (by simp)]
  rw [loadMsgAddr_stdAddr restBits refs]
  simp only []
  rw [if_pos hrefs]

theorem depositNotification_success {depAmt dwc da rwc ra hl tl : Nat}
    (restBits r1rest : List Bool) (r1refs : List TCell) (r2rest : List Bool)
    (r2refs moreRefs : List TCell) {st : ContractState}
    (hinit : st.ctx_initialized = true) (hdep : depAmt < 2 ^ 128)
    (hhl : hl < 2 ^ 256) (htl : tl < 2 ^ 64) :
    depositNotification
      ⟨natToBits 128 depAmt ++ (stdAddr dwc da ++ restBits),
       TCell.mk (stdAddr rwc ra ++ r1rest) r1refs ::
         TCell.mk (natToBits 256 hl ++ (natToBits 64 tl ++ r2rest)) r2refs :: moreRefs⟩
      depAmt st
      = .ok (storeSwap (stdAddr dwc da) (stdAddr rwc ra) depAmt hl tl st) := by
  unfold depositNotification
  rw [if_neg (by rw [hinit]; exact fun hc => Bool.noConfusion hc)]
  rw [loadUint_encoded hdep (stdAddr dwc da ++ restBits) _]
  simp only []
  rw [if_neg (by simp)]
  rw [loadMsgAddr_stdAddr restBits _]
  simp only []
  rw [if_neg (by simp)]
  simp only [loadRef]
  simp only [TCell.toSlice]
  rw [loadMsgAddr_stdAddr r1rest r1refs]
  simp only []
  rw [loadUint_encoded hhl (natToBits 64 tl ++ r2rest) r2refs]
  simp only []
  rw [loadUint_encoded htl r2rest r2refs]

theorem depositNotification_mkPayload {depAmt dwc da rwc ra hl tl : Nat}
    {st : ContractState}
    (hinit : st.ctx_initialized = true) (hdep : depAmt < 2 ^ 128)
    (hhl : hl < 2 ^ 256) (htl : tl < 2 ^ 64) :
    depositNotification (mkDepositPayload depAmt dwc da rwc ra hl tl) depAmt st
      = .ok (storeSwap (stdAddr dwc da) (stdAddr rwc ra) depAmt hl tl st) := by
  have h := @depositNotification_success depAmt dwc da rwc ra hl tl
    [] [] [] [] [] [] st hinit hdep hhl htl
  rw [List.append_nil, List.append_nil, List.append_nil] at h
  exact h

theorem completeSwap_ok_at {H : Nat → Nat} {now mv id pre : Nat} {s0 s : ContractState}
    {tr : JettonTransfer} (hid : id < 2 ^ 256) (hpre : pre < 2 ^ 256)
    (h : completeSwap H now mv (mkCompleteBody id pre) s0 = .ok (s, tr)) :
    s0.ctx_initialized = true ∧
      ∃ r, dictGet s0.ctx_swaps id = some r ∧ r.isCompleted = false ∧
        s = { s0 with ctx_swaps := dictSet s0.ctx_swaps id { r with isCompleted := true } } := by
  have hinit : s0.ctx_initialized = true := (completeSwap_ok_shape h).1
  cases hget : dictGet s0.ctx_swaps id with
  | none =>
      rw [completeSwap_notfound hinit hid hpre hget] at h
      exact absurd h (by simp)
  | some r =>
      rw [completeSwap_eval hinit hid hpre hget] at h
      split at h
      · exact absurd h (by simp)
      next hnc =>
      split at h
      · exact absurd h (by simp)
      next hh =>
      split at h
      · exact absurd h (by simp)
      next ht =>
      split at h
      · exact absurd h (by simp)
      next tr' hsend =>
      simp only [Except.ok.injEq, Prod.mk.injEq] at h
      exact ⟨hinit, r, rfl, by simpa using hnc, h.1.symm⟩

theorem refundSwap_ok_at {now mv id : Nat} {s0 s : ContractState}
    {tr : JettonTransfer} (hid : id < 2 ^ 256)
    (h : refundSwap now mv (mkRefundBody id) s0 = .ok (s, tr)) :
    s0.ctx_initialized = true ∧
      ∃ r, dictGet s0.ctx_swaps id = some r ∧ r.isCompleted = false ∧
        s = { s0 with ctx_swaps := dictSet s0.ctx_swaps id { r with isCompleted := true } } := by
  have hinit : s0.ctx_initialized = true := (refundSwap_ok_shape h).1
  cases hget : dictGet s0.ctx_swaps id with
  | none =>
      rw [refundSwap_notfound hinit hid hget] at h
      exact absurd h (by simp)
  | some r =>
      rw [refundSwap_eval hinit hid hget] at h
      split at h
      · exact absurd h (by simp)
      next hnc =>
      split at h
      · exact absurd h (by simp)
      next ht =>
      split at h
      · exact absurd h (by simp)
      next tr' hsend =>
      simp only [Except.ok.injEq, Prod.mk.injEq] at h
      exact ⟨hinit, r, rfl, by simpa using hnc, h.1.symm⟩

theorem initialize_storage_eval {rand wc a : Nat} {st : ContractState}
    (hinit : st.ctx_initialized = false) :
    initialize_storage rand (mkInitBody wc a) st =
      .ok ⟨rand % 4294967296, stdAddr wc a, 0, [], [], true⟩ := by
  unfold initialize_storage mkInitBody
  rw [if_neg (by rw [hinit]; exact fun hc => Bool.noConfusion hc)]
  rw [loadMsgAddr_stdAddr_exact]

theorem initialize_storage_already {rand : Nat} {body : Slice} {st : ContractState}
    (hinit : st.ctx_initialized = true) :
    initialize_storage rand body st = .error ERR_ALREADY_INITIALIZED := by
  unfold initialize_storage
  rw [if_pos hinit]

theorem recv_internal_not_initialized {H : Nat → Nat} {rand now mv : Nat}
    {body : Slice} {st : ContractState} {op : Nat} {rest : Slice}
    (hload : loadUint body 32 = some (op, rest))
    (hop : op ≠ OP_INITIALIZE)
    (hinit : st.ctx_initialized = false) :
    recv_internal H rand now mv body st = .error ERR_NOT_INITIALIZED := by
  unfold recv_internal
  rw [if_neg (by
    rw [sliceEmpty_false_of_loadUint hload]
    exact fun hc => Bool.noConfusion hc)]
  rw [hload]
  simp only []
  rw [if_neg hop, if_pos hinit]

theorem loadCoins_encoded1 {cv : Nat} (hcv : cv < 2 ^ 8) (rest : List Bool)
    (refs : List TCell) :
    loadCoins ⟨natToBits 4 1 ++ (natToBits 8 cv ++ rest), refs⟩ = some (cv, ⟨rest, refs⟩) := by
  unfold loadCoins
  rw [loadUint_encoded (by norm_num) (natToBits 8 cv ++ rest) refs]
  simp only []
  rw [show (8 * 1 : Nat) = 8 from rfl]
  exact loadUint_encoded hcv rest refs

/-- A canonical jetton transfer-notification body (after the 32-bit router
op): `queryId(64) | amount(coins, one byte) | from(address) |` one
discriminator bit selecting the forward payload `⟨fbits, frefs⟩`, carried
inline when the bit is 0 and as a referenced cell when it is 1. -/
def mkJettonMsg (q cv fwc fa : Nat) (isRef : Bool) (fbits : List Bool)
    (frefs : List TCell) : Slice :=
  match isRef with
  | false =>
      ⟨natToBits 32 OP_JETTON_NOTIFY ++ (natToBits 64 q ++ (natToBits 4 1 ++ (natToBits 8 cv ++
         (stdAddr fwc fa ++ false :: fbits)))), frefs⟩
  | true =>
      ⟨natToBits 32 OP_JETTON_NOTIFY ++ (natToBits 64 q ++ (natToBits 4 1 ++ (natToBits 8 cv ++
         (stdAddr fwc fa ++ [true])))), [TCell.mk fbits frefs]⟩

set_option maxRecDepth 4000 in
theorem recv_internal_jetton {H : Nat → Nat} {rand now mv q cv fwc fa : Nat}
    {isRef : Bool} {fbits : List Bool} {frefs : List TCell} {st : ContractState}
    (hinit : st.ctx_initialized = true) (hq : q < 2 ^ 64) (hcv : cv < 2 ^ 8) :
    recv_internal H rand now mv (mkJettonMsg q cv fwc fa isRef fbits frefs) st =
      (if fbits.length < 32 then .error ERR_INSUFFICIENT_BITS
       else
         match loadUint ⟨fbits, frefs⟩ 32 with
         | none => .error EXIT_CELL_UNDERFLOW
         | some (f_op, f1) =>
           if f_op ≠ OP_DEPOSIT_NOTIFICATION then .error ERR_INVALID_FORWARD_OP
           else (depositNotification f1 cv st).map (fun s1 => (s1, none))) := by
  cases isRef with
  | false =>
      unfold recv_internal mkJettonMsg
      have hop := loadUint_encoded (by decide : OP_JETTON_NOTIFY < 2 ^ 32)
        (natToBits 64 q ++ (natToBits 4 1 ++ (natToBits 8 cv ++
          (stdAddr fwc fa ++ false :: fbits)))) frefs
      rw [if_neg (by
        rw [sliceEmpty_false_of_loadUint hop]
        exact fun hc => Bool.noConfusion hc)]
      rw [hop]
      simp only []
      rw [if_neg (show ¬ (OP_JETTON_NOTIFY = OP_INITIALIZE) by decide),
        if_neg (by rw [hinit]; exact fun hc => Bool.noConfusion hc),
        if_neg (show ¬ (OP_JETTON_NOTIFY = OP_COMPLETE_SWAP) by decide),
        if_neg (show ¬ (OP_JETTON_NOTIFY = OP_REFUND_SWAP) by decide),
        if_pos trivial]
      unfold handleJettonNotification
      rw [loadUint_encoded hq _ _]
      simp only []
      rw [loadCoins_encoded1 hcv _ _]
      simp only []
      rw [loadMsgAddr_stdAddr _ _]
      simp only []
      rw [loadUint_one false fbits frefs]
      simp only []
      rw [if_neg (show ¬ ((if false then 1 else 0) = 1) by norm_num)]
      simp only []
      by_cases hlen : fbits.length < 32
      · rw [if_pos hlen, if_pos hlen]
        rfl
      · rw [if_neg hlen, if_neg hlen]
        cases hl2 : loadUint ⟨fbits, frefs⟩ 32 with
        | none => rfl
        | some p =>
            obtain ⟨f_op, f1⟩ := p
            simp only []
            by_cases hfop : f_op ≠ OP_DEPOSIT_NOTIFICATION
            · simp only [if_pos hfop]
              rfl
            · simp only [if_neg hfop]
  | true =>
      unfold recv_internal mkJettonMsg
      have hop := loadUint_encoded (by decide : OP_JETTON_NOTIFY < 2 ^ 32)
        (natToBits 64 q ++ (natToBits 4 1 ++ (natToBits 8 cv ++
          (stdAddr fwc fa ++ [true])))) [TCell.mk fbits frefs]
      rw [if_neg (by
        rw [sliceEmpty_false_of_loadUint hop]
        exact fun hc => Bool.noConfusion hc)]
      rw [hop]
      simp only []
      rw [if_neg (show ¬ (OP_JETTON_NOTIFY = OP_INITIALIZE) by decide),
        if_neg (by rw [hinit]; exact fun hc => Bool.noConfusion hc),
        if_neg (show ¬ (OP_JETTON_NOTIFY = OP_COMPLETE_SWAP) by decide),
        if_neg (show ¬ (OP_JETTON_NOTIFY = OP_REFUND_SWAP) by decide),
        if_pos trivial]
      unfold handleJettonNotification
      rw [loadUint_encoded hq _ _]
      simp only []
      rw [loadCoins_encoded1 hcv _ _]
      simp only []
      rw [loadMsgAddr_stdAddr _ _]
      simp only []
      rw [loadUint_one true [] [TCell.mk fbits frefs]]
      simp only []
      rw [if_pos (show (if True then 1 else 0) = 1 by simp)]
      simp only [loadRef, Option.map, TCell.toSlice]
      by_cases hlen : fbits.length < 32
      · rw [if_pos hlen, if_pos hlen]
        rfl
      · rw [if_neg hlen, if_neg hlen]
        cases hl2 : loadUint ⟨fbits, frefs⟩ 32 with
        | none => rfl
        | some p =>
            obtain ⟨f_op, f1⟩ := p
            simp only []
            by_cases hfop : f_op ≠ OP_DEPOSIT_NOTIFICATION
            · simp only [if_pos hfop]
              rfl
            · simp only [if_neg hfop]

/-! ### Concrete sample data for witnesses and counterexamples -/

def addrW : Addr := stdAddr 0 1
def addrA : Addr := stdAddr 0 2
def addrB : Addr := stdAddr 0 3

/-- A pending swap: amount 100, hashLock 5, timeLock 1000. -/
def recSample : SwapRecord := ⟨addrA, addrB, 100, 5, 1000, false⟩

/-- An initialized state holding `recSample` under id 0. -/
def stSample : ContractState := ⟨7, addrW, 1, [(0, recSample)], [(5, 0)], true⟩

/-- `stSample` after a successful Complete of swap 0. -/
def stSampleDone : ContractState :=
  { stSample with
    ctx_swaps := dictSet stSample.ctx_swaps 0 { recSample with isCompleted := true } }

/-- An initialized state with no swaps yet. -/
def stInit : ContractState := ⟨7, addrW, 0, [], [], true⟩

/-! ### The claims -/

/-- C1 (amended): with the swap id and preimage parsed from the message
body, Complete fails with `SwapNotFound`, `SwapCompleted`,
`InvalidPreimage`, `TimelockExpired` — checked in this order — and
otherwise with `SendFailed` when the outbound transfer's own validation
fails; it succeeds, setting `isCompleted` and sending `record.amount` to
`record.recipient`, exactly when the swap exists, is not completed, the
hash matches, the time lock has not expired, and the transfer validation
passes.  An `error` result carries no state change: the transaction rolls
back and `isCompleted` is left unchanged. -/
theorem claim_C1 (H : Nat → Nat) (now mv swapId preimage : Nat) (st : ContractState)
    (hinit : st.ctx_initialized = true) (hid : swapId < 2 ^ 256)
    (hpre : preimage < 2 ^ 256) :
    (dictGet st.ctx_swaps swapId = none →
        completeSwap H now mv (mkCompleteBody swapId preimage) st =
          .error ERR_SWAP_NOT_FOUND) ∧
    (∀ r, dictGet st.ctx_swaps swapId = some r →
      (r.isCompleted = true →
          completeSwap H now mv (mkCompleteBody swapId preimage) st =
            .error ERR_SWAP_COMPLETED) ∧
      (r.isCompleted = false → H preimage ≠ r.hashLock →
          completeSwap H now mv (mkCompleteBody swapId preimage) st =
            .error ERR_INVALID_PREIMAGE) ∧
      (r.isCompleted = false → H preimage = r.hashLock → r.timeLock ≤ now →
          completeSwap H now mv (mkCompleteBody swapId preimage) st =
            .error ERR_TIMELOCK_EXPIRED) ∧
      (r.isCompleted = false → H preimage = r.hashLock → now < r.timeLock →
          ¬ TransferOk st.ctx_jetton_wallet r.recipient r.tokenAmount mv →
          completeSwap H now mv (mkCompleteBody swapId preimage) st =
            .error ERR_SEND_FAILED) ∧
      (r.isCompleted = false → H preimage = r.hashLock → now < r.timeLock →
          TransferOk st.ctx_jetton_wallet r.recipient r.tokenAmount mv →
          completeSwap H now mv (mkCompleteBody swapId preimage) st =
            .ok ({ st with
                    ctx_swaps := dictSet st.ctx_swaps swapId { r with isCompleted := true } },
                 ⟨st.ctx_jetton_wallet, r.recipient, r.tokenAmount⟩))) ∧
    ((∃ st' tr, completeSwap H now mv (mkCompleteBody swapId preimage) st = .ok (st', tr)) ↔
      (∃ r, dictGet st.ctx_swaps swapId = some r ∧ r.isCompleted = false ∧
        H preimage = r.hashLock ∧ now < r.timeLock ∧
        TransferOk st.ctx_jetton_wallet r.recipient r.tokenAmount mv)) := by
  cases hget : dictGet st.ctx_swaps swapId with
  | none =>
      refine ⟨fun _ => completeSwap_notfound hinit hid hpre hget, ?_, ?_⟩
      · intro r hr
        exact absurd hr (by simp)
      · constructor
        · rintro ⟨st', tr, hok⟩
          rw [completeSwap_notfound hinit hid hpre hget] at hok
          exact absurd hok (by simp)
        · rintro ⟨r, hr, -⟩
          exact absurd hr (by simp)
  | some r0 =>
      have heval := @completeSwap_eval H now mv swapId preimage st r0
        hinit hid hpre hget
      refine ⟨fun hc => absurd hc (by simp), ?_, ?_⟩
      · intro r hr
        have hrr : r0 = r := Option.some.inj hr
        subst hrr
        refine ⟨?_, ?_, ?_, ?_, ?_⟩
        · intro hc
          rw [heval, if_pos hc]
        · intro hnc hne
          rw [heval, if_neg (by simp [hnc]), if_pos hne]
        · intro hnc hh ht
          rw [heval, if_neg (by simp [hnc]), if_neg (not_not_intro hh), if_pos ht]
        · intro hnc hh ht hT
          rw [heval, if_neg (by simp [hnc]), if_neg (not_not_intro hh),
            if_neg (by omega), sendJettonTransfer_error _ _ _ _ hT]
        · intro hnc hh ht hT
          rw [heval, if_neg (by simp [hnc]), if_neg (not_not_intro hh),
            if_neg (by omega), (sendJettonTransfer_ok_iff _ _ _ _).mpr hT]
      · constructor
        · rintro ⟨st', tr, hok⟩
          rw [heval] at hok
          split at hok
          · exact absurd hok (by simp)
          next hnc =>
          split at hok
          · exact absurd hok (by simp)
          next hh =>
          split at hok
          · exact absurd hok (by simp)
          next ht =>
          split at hok
          · exact absurd hok (by simp)
          next tr' hsend =>
          exact ⟨r0, rfl, by simpa using hnc, not_not.mp hh, by omega,
            (sendJettonTransfer_ok_inv hsend).2⟩
        · rintro ⟨r, hr, hnc, hh, ht, hT⟩
          have hrr : r0 = r := Option.some.inj hr
          subst hrr
          exact ⟨{ st with ctx_swaps := dictSet st.ctx_swaps swapId { r0 with isCompleted := true } },
            ⟨st.ctx_jetton_wallet, r0.recipient, r0.tokenAmount⟩, by
              rw [heval, if_neg (by simp [hnc]), if_neg (not_not_intro hh),
                if_neg (by omega), (sendJettonTransfer_ok_iff _ _ _ _).mpr hT]⟩

/-- C1 witness: a concrete successful Complete (sufficient attached value)
at swap 0 of `stSample`. -/
theorem claim_C1_witness :
    completeSwap (fun n => n) 500 1000000000 (mkCompleteBody 0 5) stSample =
      .ok ({ stSample with
              ctx_swaps := dictSet stSample.ctx_swaps 0 { recSample with isCompleted := true } },
           ⟨stSample.ctx_jetton_wallet, recSample.recipient, recSample.tokenAmount⟩) := by
  have h := claim_C1 (fun n => n) 500 1000000000 0 5 stSample rfl
    (by norm_num) (by norm_num)
  exact ((h.2.1 recSample rfl).2.2.2.2) rfl rfl (by decide) (by decide)

/-- C1 counterexample to the claim as stated: at swap 0 of `stSample` all
four stated success conditions hold (record exists, not completed, hash
matches, `now < timeLock`), yet Complete with attached value 0 fails (with
`SendFailed`, an error outside the claim's list), because the outbound
transfer's minimum-value check fails inside `sendJettonTransfer` — so
"succeeds iff the four conditions hold" is false on the code. -/
theorem claim_C1_counterexample :
    dictGet stSample.ctx_swaps 0 = some recSample ∧
    recSample.isCompleted = false ∧
    (fun n => n : Nat → Nat) 5 = recSample.hashLock ∧
    (500 : Nat) < recSample.timeLock ∧
    completeSwap (fun n => n) 500 0 (mkCompleteBody 0 5) stSample =
      .error ERR_SEND_FAILED := by
  refine ⟨rfl, rfl, rfl, by norm_num [recSample], ?_⟩
  rw [@completeSwap_eval (fun n => n) 500 0 0 5 stSample recSample rfl
    (by norm_num) (by norm_num) rfl]
  rw [if_neg (by simp [recSample]), if_neg (by norm_num [recSample]),
    if_neg (by norm_num [recSample]),
    sendJettonTransfer_error _ _ _ _ (fun hT => by
      have := hT.1
      norm_num [REQUIRED_VALUE, FORWARD_TON_AMOUNT, GAS_CONSUMPTION, FWD_FEE,
        MIN_TONS_FOR_STORAGE] at this)]

/-- C2 (amended): with the swap id parsed from the message body, Refund
fails with `SwapNotFound`, `SwapAlreadyCompletedRefund`,
`TimelockNotExpired` — checked in this order — and otherwise with
`SendFailed` when the outbound transfer's validation fails; it succeeds,
setting `isCompleted` and sending `record.amount` back to
`record.initiator`, exactly when the swap exists, is not completed,
`now ≥ timeLock`, and the transfer validation passes.  An `error` result
carries no state change. -/
theorem claim_C2 (now mv swapId : Nat) (st : ContractState)
    (hinit : st.ctx_initialized = true) (hid : swapId < 2 ^ 256) :
    (dictGet st.ctx_swaps swapId = none →
        refundSwap now mv (mkRefundBody swapId) st = .error ERR_SWAP_NOT_FOUND) ∧
    (∀ r, dictGet st.ctx_swaps swapId = some r →
      (r.isCompleted = true →
          refundSwap now mv (mkRefundBody swapId) st =
            .error ERR_SWAP_ALREADY_COMPLETED_REFUND) ∧
      (r.isCompleted = false → now < r.timeLock →
          refundSwap now mv (mkRefundBody swapId) st =
            .error ERR_TIMELOCK_NOT_EXPIRED) ∧
      (r.isCompleted = false → r.timeLock ≤ now →
          ¬ TransferOk st.ctx_jetton_wallet r.initiator r.tokenAmount mv →
          refundSwap now mv (mkRefundBody swapId) st = .error ERR_SEND_FAILED) ∧
      (r.isCompleted = false → r.timeLock ≤ now →
          TransferOk st.ctx_jetton_wallet r.initiator r.tokenAmount mv →
          refundSwap now mv (mkRefundBody swapId) st =
            .ok ({ st with
                    ctx_swaps := dictSet st.ctx_swaps swapId { r with isCompleted := true } },
                 ⟨st.ctx_jetton_wallet, r.initiator, r.tokenAmount⟩))) ∧
    ((∃ st' tr, refundSwap now mv (mkRefundBody swapId) st = .ok (st', tr)) ↔
      (∃ r, dictGet st.ctx_swaps swapId = some r ∧ r.isCompleted = false ∧
        r.timeLock ≤ now ∧
        TransferOk st.ctx_jetton_wallet r.initiator r.tokenAmount mv)) := by
  cases hget : dictGet st.ctx_swaps swapId with
  | none =>
      refine ⟨fun _ => refundSwap_notfound hinit hid hget, ?_, ?_⟩
      · intro r hr
        exact absurd hr (by simp)
      · constructor
        · rintro ⟨st', tr, hok⟩
          rw [refundSwap_notfound hinit hid hget] at hok
          exact absurd hok (by simp)
        · rintro ⟨r, hr, -⟩
          exact absurd hr (by simp)
  | some r0 =>
      have heval := @refundSwap_eval now mv swapId st r0 hinit hid hget
      refine ⟨fun hc => absurd hc (by simp), ?_, ?_⟩
      · intro r hr
        have hrr : r0 = r := Option.some.inj hr
        subst hrr
        refine ⟨?_, ?_, ?_, ?_⟩
        · intro hc
          rw [heval, if_pos hc]
        · intro hnc ht
          rw [heval, if_neg (by simp [hnc]), if_pos ht]
        · intro hnc ht hT
          rw [heval, if_neg (by simp [hnc]), if_neg (by omega),
            sendJettonTransfer_error _ _ _ _ hT]
        · intro hnc ht hT
          rw [heval, if_neg (by simp [hnc]), if_neg (by omega),
            (sendJettonTransfer_ok_iff _ _ _ _).mpr hT]
      · constructor
        · rintro ⟨st', tr, hok⟩
          rw [heval] at hok
          split at hok
          · exact absurd hok (by simp)
          next hnc =>
          split at hok
          · exact absurd hok (by simp)
          next ht =>
          split at hok
          · exact absurd hok (by simp)
          next tr' hsend =>
          exact ⟨r0, rfl, by simpa using hnc, by omega,
            (sendJettonTransfer_ok_inv hsend).2⟩
        · rintro ⟨r, hr, hnc, ht, hT⟩
          have hrr : r0 = r := Option.some.inj hr
          subst hrr
          exact ⟨{ st with ctx_swaps := dictSet st.ctx_swaps swapId { r0 with isCompleted := true } },
            ⟨st.ctx_jetton_wallet, r0.initiator, r0.tokenAmount⟩, by
              rw [heval, if_neg (by simp [hnc]), if_neg (by omega),
                (sendJettonTransfer_ok_iff _ _ _ _).mpr hT]⟩

/-- C2 witness: a concrete successful Refund (expired time lock, funded
message) at swap 0 of `stSample`. -/
theorem claim_C2_witness :
    refundSwap 2000 1000000000 (mkRefundBody 0) stSample =
      .ok ({ stSample with
              ctx_swaps := dictSet stSample.ctx_swaps 0 { recSample with isCompleted := true } },
           ⟨stSample.ctx_jetton_wallet, recSample.initiator, recSample.tokenAmount⟩) := by
  have h := claim_C2 2000 1000000000 0 stSample rfl (by norm_num)
  exact ((h.2.1 recSample rfl).2.2.2) rfl (by decide) (by decide)

/-- C2 counterexample to the claim as stated: at swap 0 of `stSample` the
stated success conditions hold (record exists, not completed,
`now ≥ timeLock`), yet Refund with attached value 0 fails with
`SendFailed` because the transfer's minimum-value check fails — so
"succeeds iff `now ≥ timeLock ∧ ¬isCompleted`" is false on the code. -/
theorem claim_C2_counterexample :
    dictGet stSample.ctx_swaps 0 = some recSample ∧
    recSample.isCompleted = false ∧
    recSample.timeLock ≤ 2000 ∧
    refundSwap 2000 0 (mkRefundBody 0) stSample = .error ERR_SEND_FAILED := by
  refine ⟨rfl, rfl, by decide, ?_⟩
  rw [@refundSwap_eval 2000 0 0 stSample recSample rfl (by norm_num) rfl]
  rw [if_neg (by simp [recSample]), if_neg (by norm_num [recSample]),
    sendJettonTransfer_error _ _ _ _ (fun hT => by
      have := hT.1
      norm_num [REQUIRED_VALUE, FORWARD_TON_AMOUNT, GAS_CONSUMPTION, FWD_FEE,
        MIN_TONS_FOR_STORAGE] at this)]

/-- C3: once Complete or Refund has succeeded for a swap id (from a state
whose stored ids are below the counter, as in every reachable state), in
every subsequently reachable state the record is still present with
`isCompleted = true` — no operation resets it — and every later Complete
attempt on that id fails with `SwapCompleted` while every later Refund
attempt fails with `SwapAlreadyCompletedRefund`. -/
theorem claim_C3 (H : Nat → Nat) (now0 mv0 now1 mv1 now2 mv2 id pre0 pre1 : Nat)
    (s0 s t : ContractState) (tr : JettonTransfer)
    (hb : SwapKeysBounded s0) (hid : id < 2 ^ 256)
    (hpre0 : pre0 < 2 ^ 256) (hpre1 : pre1 < 2 ^ 256)
    (hsucc : completeSwap H now0 mv0 (mkCompleteBody id pre0) s0 = .ok (s, tr) ∨
             refundSwap now0 mv0 (mkRefundBody id) s0 = .ok (s, tr))
    (hreach : Reachable H s t) :
    (∃ rec, dictGet t.ctx_swaps id = some rec ∧ rec.isCompleted = true) ∧
    completeSwap H now1 mv1 (mkCompleteBody id pre1) t = .error ERR_SWAP_COMPLETED ∧
    refundSwap now2 mv2 (mkRefundBody id) t =
      .error ERR_SWAP_ALREADY_COMPLETED_REFUND := by
  have hshape : s0.ctx_initialized = true ∧ ∃ r, dictGet s0.ctx_swaps id = some r ∧
      r.isCompleted = false ∧
      s = { s0 with ctx_swaps := dictSet s0.ctx_swaps id { r with isCompleted := true } } := by
    rcases hsucc with h | h
    · exact completeSwap_ok_at hid hpre0 h
    · exact refundSwap_ok_at hid h
  obtain ⟨hinit0, r, hget0, hnc, hs⟩ := hshape
  have hstep : StepShape s0 s := Or.inr (Or.inr (Or.inr ⟨hinit0, id, r, hget0, hnc, hs⟩))
  have hinit_s : s.ctx_initialized = true := hstep.preserves_initialized hinit0
  have hb_s : SwapKeysBounded s := hstep.preserves_bounded hb
  have hget_s : dictGet s.ctx_swaps id = some { r with isCompleted := true } := by
    rw [hs]
    exact dictGet_dictSet_self _ _ _
  obtain ⟨hinit_t, hb_t, hget_t⟩ :=
    reachable_completed_stable hreach hinit_s hb_s hget_s rfl
  refine ⟨⟨_, hget_t, rfl⟩, ?_, ?_⟩
  · rw [@completeSwap_eval H now1 mv1 id pre1 t _ hinit_t hid hpre1 hget_t, if_pos rfl]
  · rw [@refundSwap_eval now2 mv2 id t _ hinit_t hid hget_t, if_pos rfl]

/-- C3 witness: a concrete successful Complete of swap 0 of `stSample`,
after which (here: zero further steps) the record stays completed and both
later attempts fail with the stated codes. -/
theorem claim_C3_witness :
    (∃ rec, dictGet stSampleDone.ctx_swaps 0 = some rec ∧ rec.isCompleted = true) ∧
    completeSwap (fun n => n) 600 1000000000 (mkCompleteBody 0 7) stSampleDone =
      .error ERR_SWAP_COMPLETED ∧
    refundSwap 2000 1000000000 (mkRefundBody 0) stSampleDone =
      .error ERR_SWAP_ALREADY_COMPLETED_REFUND := by
  refine claim_C3 (fun n => n) 500 1000000000 600 1000000000 2000 1000000000 0 5 7
    stSample stSampleDone stSampleDone
    ⟨stSample.ctx_jetton_wallet, recSample.recipient, recSample.tokenAmount⟩
    ?_ (by norm_num) (by norm_num) (by norm_num) ?_ Reachable.refl
  · intro k r h
    show k < 1
    simp only [show stSample.ctx_swaps = [(0, recSample)] from rfl, dictGet] at h
    split at h
    · next h0 => omega
    · exact absurd h (by simp [dictGet])
  · left
    rw [@completeSwap_eval (fun n => n) 500 1000000000 0 5 stSample recSample rfl
      (by norm_num) (by norm_num) rfl]
    rw [if_neg (by simp [recSample]),
      if_neg (show ¬¬((5 : Nat) = recSample.hashLock) from not_not_intro rfl),
      if_neg (by norm_num [recSample]),
      (sendJettonTransfer_ok_iff _ _ _ _).mpr (by decide)]
    rfl

/-- C4: every successful DepositNotify increments `swapCounter` by one and
inserts a fresh record (amount = the notified amount, `isCompleted =
false`) under the old counter value, points `hashlockIndex[hashLock]` at
that id, and makes the swap retrievable both by `get_swap` and by
`get_swap_by_hashlock`; on the canonical payload the stored fields are
exactly the decoded depositor, recipient, amount, hashLock and
timeLock. -/
theorem claim_C4 (f : Slice) (amount : Nat) (st st' : ContractState)
    (depAmt dwc da rwc ra hl2 tl2 : Nat) (st2 : ContractState)
    (h : depositNotification f amount st = .ok st')
    (hinit2 : st2.ctx_initialized = true) (hdep : depAmt < 2 ^ 128)
    (hhl : hl2 < 2 ^ 256) (htl : tl2 < 2 ^ 64) :
    (st'.ctx_swap_counter = st.ctx_swap_counter + 1 ∧
     ∃ dep rec hl tl,
       st' = storeSwap dep rec amount hl tl st ∧
       dictGet st'.ctx_swaps st.ctx_swap_counter = some ⟨dep, rec, amount, hl, tl, false⟩ ∧
       dictGet st'.ctx_hashlock_map hl = some st.ctx_swap_counter ∧
       get_swap st' st.ctx_swap_counter = .ok ⟨dep, rec, amount, hl, tl, false⟩ ∧
       get_swap_by_hashlock st' hl =
         .ok (st.ctx_swap_counter, ⟨dep, rec, amount, hl, tl, false⟩)) ∧
    depositNotification (mkDepositPayload depAmt dwc da rwc ra hl2 tl2) depAmt st2 =
      .ok (storeSwap (stdAddr dwc da) (stdAddr rwc ra) depAmt hl2 tl2 st2) := by
  refine ⟨?_, depositNotification_mkPayload hinit2 hdep hhl htl⟩
  obtain ⟨hi, dep, rec, hl, tl, rfl⟩ := depositNotification_ok_shape h
  obtain ⟨h1, h2, h3, h4, h5⟩ := storeSwap_effects dep rec amount hl tl st
  exact ⟨h1, dep, rec, hl, tl, rfl, h2, h3, h4, h5⟩

/-- C4 witness: a concrete deposit of amount 100 with hashLock 5 into the
empty initialized state `stInit`. -/
theorem claim_C4_witness :
    (storeSwap (stdAddr 0 2) (stdAddr 0 3) 100 5 1000 stInit).ctx_swap_counter =
      stInit.ctx_swap_counter + 1 ∧
    depositNotification (mkDepositPayload 100 0 2 0 3 5 1000) 100 stInit =
      .ok (storeSwap (stdAddr 0 2) (stdAddr 0 3) 100 5 1000 stInit) := by
  have h := claim_C4 (mkDepositPayload 100 0 2 0 3 5 1000) 100 stInit
    (storeSwap (stdAddr 0 2) (stdAddr 0 3) 100 5 1000 stInit)
    100 0 2 0 3 5 1000 stInit
    (depositNotification_mkPayload rfl (by norm_num) (by norm_num) (by norm_num))
    rfl (by norm_num) (by norm_num) (by norm_num)
  exact ⟨h.1.1, h.2⟩

/-- C5: Initialize succeeds exactly when the latch is false (storing the
supplied wallet, zeroing the counter and emptying both maps); when the
latch is set it always fails with `AlreadyInitialized` before reading its
input, so a second Initialize always fails; and while the latch is false
every Complete, Refund and token-notification message fails with
`NotInitialized`.  Failures carry no state change. -/
theorem claim_C5 (H : Nat → Nat) (rand rand' now mv wc a op : Nat)
    (body body' : Slice) (st st' : ContractState) (rest : Slice) :
    (st.ctx_initialized = false →
        initialize_storage rand (mkInitBody wc a) st =
          .ok ⟨rand % 4294967296, stdAddr wc a, 0, [], [], true⟩) ∧
    (st.ctx_initialized = true →
        initialize_storage rand body st = .error ERR_ALREADY_INITIALIZED) ∧
    (initialize_storage rand body st = .ok st' →
        initialize_storage rand' body' st' = .error ERR_ALREADY_INITIALIZED) ∧
    (st.ctx_initialized = false →
        loadUint body 32 = some (op, rest) →
        (op = OP_COMPLETE_SWAP ∨ op = OP_REFUND_SWAP ∨ op = OP_JETTON_NOTIFY) →
        recv_internal H rand now mv body st = .error ERR_NOT_INITIALIZED) := by
  refine ⟨fun h => initialize_storage_eval h, fun h => initialize_storage_already h,
    ?_, ?_⟩
  · intro h
    obtain ⟨-, w, rfl⟩ := initialize_storage_ok_shape h
    exact initialize_storage_already rfl
  · intro hninit hload hop
    refine recv_internal_not_initialized hload ?_ hninit
    rcases hop with h | h | h <;> (subst h; decide)

/-- C5 witness: a fresh contract initializes once, a second Initialize
fails with `AlreadyInitialized`, and a Complete message against the fresh
contract fails with `NotInitialized`. -/
theorem claim_C5_witness :
    initialize_storage 42 (mkInitBody 0 1) (initState (stdAddr 0 1)) =
      .ok ⟨42 % 4294967296, stdAddr 0 1, 0, [], [], true⟩ ∧
    initialize_storage 43 (mkInitBody 0 9)
      (⟨42 % 4294967296, stdAddr 0 1, 0, [], [], true⟩ : ContractState) =
      .error ERR_ALREADY_INITIALIZED ∧
    recv_internal (fun n => n) 0 0 0 ⟨natToBits 32 OP_COMPLETE_SWAP, []⟩
      (initState (stdAddr 0 1)) = .error ERR_NOT_INITIALIZED := by
  have h := claim_C5 (fun n => n) 42 43 0 0 0 1 OP_COMPLETE_SWAP
    (mkInitBody 0 1) (mkInitBody 0 9) (initState (stdAddr 0 1))
    ⟨42 % 4294967296, stdAddr 0 1, 0, [], [], true⟩ ⟨[], []⟩
  have ha := h.1 rfl
  have h2 := claim_C5 (fun n => n) 0 0 0 0 0 1 OP_COMPLETE_SWAP
    (⟨natToBits 32 OP_COMPLETE_SWAP, []⟩ : Slice) (mkInitBody 0 9)
    (initState (stdAddr 0 1)) stInit ⟨[], []⟩
  exact ⟨ha, h.2.2.1 ha,
    h2.2.2.2 rfl (loadUint_encoded_exact (by decide) []) (Or.inl rfl)⟩

theorem recv_internal_init_dispatch {H : Nat → Nat} {rand now mv : Nat}
    {body rest : Slice} {st : ContractState}
    (hload : loadUint body 32 = some (OP_INITIALIZE, rest)) :
    recv_internal H rand now mv body st =
      (initialize_storage rand rest st).map (fun s1 => (s1, none)) := by
  unfold recv_internal
  rw [if_neg (by
    rw [sliceEmpty_false_of_loadUint hload]
    exact fun hc => Bool.noConfusion hc)]
  rw [hload]
  simp only []
  rw [if_pos trivial]

/-! ### A concrete deposit scenario (used for C6) -/

/-- The state right after initializing a fresh contract with wallet
`stdAddr 0 1` and randomness 0. -/
def sInit : ContractState := ⟨0, stdAddr 0 1, 0, [], [], true⟩

/-- An Initialize message binding wallet `stdAddr 0 1`. -/
def initMsg : Slice := ⟨natToBits 32 OP_INITIALIZE ++ stdAddr 0 1, []⟩

/-- Forward-payload bits of a deposit of 100 tokens from `stdAddr 0 2`
with hashLock 5 and timeLock 1000. -/
def dep1Fbits : List Bool :=
  natToBits 32 OP_DEPOSIT_NOTIFICATION ++ (natToBits 128 100 ++ (stdAddr 0 2 ++ []))

/-- The two reference cells of that payload: recipient `stdAddr 0 3`, and
hashLock 5 with timeLock 1000. -/
def dep1Refs : List TCell :=
  TCell.mk (stdAddr 0 3 ++ []) [] ::
    TCell.mk (natToBits 256 5 ++ (natToBits 64 1000 ++ [])) [] :: []

/-- The full jetton transfer-notification body carrying that payload
inline. -/
def depositMsg : Slice := mkJettonMsg 0 100 0 9 false dep1Fbits dep1Refs

def sOne : ContractState := storeSwap (stdAddr 0 2) (stdAddr 0 3) 100 5 1000 sInit

def sTwo : ContractState := storeSwap (stdAddr 0 2) (stdAddr 0 3) 100 5 1000 sOne

theorem recv_depositMsg (H : Nat → Nat) (rand now mv : Nat) {st : ContractState}
    (hinit : st.ctx_initialized = true) :
    recv_internal H rand now mv depositMsg st =
      .ok (storeSwap (stdAddr 0 2) (stdAddr 0 3) 100 5 1000 st, none) := by
  rw [show depositMsg = mkJettonMsg 0 100 0 9 false dep1Fbits dep1Refs from rfl]
  rw [recv_internal_jetton hinit (by norm_num) (by norm_num)]
  rw [if_neg (by
    rw [show dep1Fbits.length = 427 from by
      simp [dep1Fbits, natToBits_length, stdAddr_length]]
    norm_num)]
  have hl := loadUint_encoded (show OP_DEPOSIT_NOTIFICATION < 2 ^ 32 by decide)
    (natToBits 128 100 ++ (stdAddr 0 2 ++ [])) dep1Refs
  rw [show (⟨dep1Fbits, dep1Refs⟩ : Slice) =
    ⟨natToBits 32 OP_DEPOSIT_NOTIFICATION ++ (natToBits 128 100 ++ (stdAddr 0 2 ++ [])),
     dep1Refs⟩ from rfl, hl]
  simp only []
  rw [if_neg (not_not_intro rfl)]
  rw [show dep1Refs = TCell.mk (stdAddr 0 3 ++ []) [] ::
    TCell.mk (natToBits 256 5 ++ (natToBits 64 1000 ++ [])) [] :: [] from rfl]
  rw [@depositNotification_success 100 0 2 0 3 5 1000 [] [] [] [] [] [] st
    hinit (by norm_num) (by norm_num) (by norm_num)]
  rfl

theorem reachable_sOne : Reachable (fun n => n) (initState (stdAddr 0 1)) sOne := by
  have h1 : recv_internal (fun n => n) 0 0 0 initMsg (initState (stdAddr 0 1)) =
      .ok (sInit, none) := by
    have hload : loadUint initMsg 32 = some (OP_INITIALIZE, ⟨stdAddr 0 1, []⟩) := by
      rw [show initMsg = ⟨natToBits 32 OP_INITIALIZE ++ stdAddr 0 1, []⟩ from rfl]
      exact loadUint_encoded (by decide) (stdAddr 0 1) []
    rw [recv_internal_init_dispatch hload]
    rw [show (⟨stdAddr 0 1, []⟩ : Slice) = mkInitBody 0 1 from rfl]
    rw [initialize_storage_eval rfl]
    rfl
  have h2 : recv_internal (fun n => n) 0 0 0 depositMsg sInit = .ok (sOne, none) :=
    recv_depositMsg _ _ _ _ rfl
  exact Reachable.step 0 0 0 depositMsg
    (Reachable.step 0 0 0 initMsg Reachable.refl h1) h2

/-- C6 (amended): in every state reachable from a fresh contract, every key
in `hashlockIndex` references a swap id present in `swaps`; the entry is
established atomically with swap creation and is never removed — after any
further successful message the key is still present and still references a
stored swap — but it CAN be reassigned: a later DepositNotify reusing the
same hashLock silently overwrites the entry with the new swap id. -/
theorem claim_C6 (H : Nat → Nat) (myAddr : Addr) (t u : ContractState)
    (rand now mv : Nat) (body : Slice) (tr : Option JettonTransfer) (k v : Nat)
    (hreach : Reachable H (initState myAddr) t)
    (hk : dictGet t.ctx_hashlock_map k = some v) :
    (∃ r, dictGet t.ctx_swaps v = some r) ∧
    (recv_internal H rand now mv body t = .ok (u, tr) →
      ∃ v', dictGet u.ctx_hashlock_map k = some v' ∧
        ∃ r', dictGet u.ctx_swaps v' = some r') := by
  obtain ⟨hp, hb, hok⟩ := reachable_inv hreach
  refine ⟨hok _ _ hk, fun hstep => ?_⟩
  have hs := recv_internal_ok_shape hstep
  cases ht : t.ctx_initialized with
  | false =>
      obtain ⟨-, hhm, -⟩ := hp ht
      rw [hhm] at hk
      exact absurd hk (by simp [dictGet])
  | true =>
      obtain ⟨v', hv'⟩ := hs.index_key_persists ht hk
      exact ⟨v', hv', (hs.preserves_hashindex hok) _ _ hv'⟩

/-- C6 witness: after one deposit the index entry for hashLock 5 references
a stored swap, and it still references a stored swap after a further
successful message (a second deposit). -/
theorem claim_C6_witness :
    (∃ r, dictGet sOne.ctx_swaps 0 = some r) ∧
    (∃ v', dictGet sTwo.ctx_hashlock_map 5 = some v' ∧
      ∃ r', dictGet sTwo.ctx_swaps v' = some r') := by
  have h := claim_C6 (fun n => n) (stdAddr 0 1) sOne sTwo 0 0 0 depositMsg none 5 0
    reachable_sOne rfl
  exact ⟨h.1, h.2 (recv_depositMsg _ _ _ _ rfl)⟩

/-- C6 counterexample to "never reassigned": in the reachable state `sOne`
the index maps hashLock 5 to swap 0, and a second DepositNotify reusing
hashLock 5 — a successful operation — changes that entry to swap 1. -/
theorem claim_C6_counterexample :
    Reachable (fun n => n) (initState (stdAddr 0 1)) sOne ∧
    dictGet sOne.ctx_hashlock_map 5 = some 0 ∧
    recv_internal (fun n => n) 0 0 0 depositMsg sOne = .ok (sTwo, none) ∧
    dictGet sTwo.ctx_hashlock_map 5 = some 1 ∧
    (0 : Nat) ≠ 1 := by
  exact ⟨reachable_sOne, rfl, recv_depositMsg _ _ _ _ rfl, rfl, by norm_num⟩

/-- C7 (amended): the Outbound Transfer Builder detects its validation
failures with distinct internal codes and in source order —
`InsufficientValue`, `EmptyTarget`, `InvalidAmount`, `EmptyWallet`, and
`BodyBuild` for a coins-range failure while building the body — but its
whole body runs inside a catch-all handler that rethrows every failure as
`SendFailed`, so the error the builder actually reports to its caller is
always `SendFailed`; it sends exactly when all validations pass. -/
theorem claim_C7 (w t : Addr) (a v : Nat) :
    (v ≤ REQUIRED_VALUE →
        sendJettonTransferInner w t a v = .error ERR_INSUFFICIENT_VALUE) ∧
    (REQUIRED_VALUE < v → t.isEmpty = true →
        sendJettonTransferInner w t a v = .error ERR_EMPTY_TARGET) ∧
    (REQUIRED_VALUE < v → t.isEmpty = false → a = 0 →
        sendJettonTransferInner w t a v = .error ERR_INVALID_AMOUNT) ∧
    (REQUIRED_VALUE < v → t.isEmpty = false → a ≠ 0 → w.isEmpty = true →
        sendJettonTransferInner w t a v = .error ERR_EMPTY_WALLET) ∧
    (REQUIRED_VALUE < v → t.isEmpty = false → a ≠ 0 → w.isEmpty = false →
        2 ^ 120 ≤ a → sendJettonTransferInner w t a v = .error ERR_BODY_BUILD) ∧
    (∀ e, sendJettonTransferInner w t a v = .error e →
        sendJettonTransfer w t a v = .error ERR_SEND_FAILED) ∧
    (sendJettonTransfer w t a v = .ok ⟨w, t, a⟩ ↔ TransferOk w t a v) := by
  refine ⟨?_, ?_, ?_, ?_, ?_, ?_, sendJettonTransfer_ok_iff w t a v⟩
  · intro h
    unfold sendJettonTransferInner
    rw [if_pos h]
  · intro h1 h2
    unfold sendJettonTransferInner
    rw [if_neg (by omega), if_pos h2]
  · intro h1 h2 h3
    unfold sendJettonTransferInner
    rw [if_neg (by omega), if_neg (by simp [h2]), if_pos h3]
  · intro h1 h2 h3 h4
    unfold sendJettonTransferInner
    rw [if_neg (by omega), if_neg (by simp [h2]), if_neg h3, if_pos h4]
  · intro h1 h2 h3 h4 h5
    unfold sendJettonTransferInner
    rw [if_neg (by omega), if_neg (by simp [h2]), if_neg h3, if_neg (by simp [h4]),
      if_pos h5]
  · intro e he
    unfold sendJettonTransfer
    rw [he]

/-- C7 witness: with attached value 0 the inner check raises
`InsufficientValue` and the function reports `SendFailed`. -/
theorem claim_C7_witness :
    sendJettonTransferInner addrW addrB 100 0 = .error ERR_INSUFFICIENT_VALUE ∧
    sendJettonTransfer addrW addrB 100 0 = .error ERR_SEND_FAILED := by
  have h := claim_C7 addrW addrB 100 0
  have h1 := h.1 (by
    norm_num [REQUIRED_VALUE, FORWARD_TON_AMOUNT, GAS_CONSUMPTION, FWD_FEE,
      MIN_TONS_FOR_STORAGE])
  exact ⟨h1, h.2.2.2.2.2.1 _ h1⟩

/-- C7 counterexample to the claim as stated: the attached value 0 does not
exceed the fixed minimum, yet the error `sendJettonTransfer` reports is
`SendFailed` (807), not the claimed distinct `InsufficientValue` (801) —
the outer catch-all rewraps every failure. -/
theorem claim_C7_counterexample :
    (0 : Nat) ≤ REQUIRED_VALUE ∧
    sendJettonTransfer addrW addrB 100 0 = .error ERR_SEND_FAILED ∧
    ERR_SEND_FAILED ≠ ERR_INSUFFICIENT_VALUE := by
  refine ⟨by norm_num, ?_, by norm_num [ERR_SEND_FAILED, ERR_INSUFFICIENT_VALUE]⟩
  exact sendJettonTransfer_error _ _ _ _ (fun hT => by
    have := hT.1
    norm_num [REQUIRED_VALUE, FORWARD_TON_AMOUNT, GAS_CONSUMPTION, FWD_FEE,
      MIN_TONS_FOR_STORAGE] at this)

set_option maxHeartbeats 1000000 in
/-- C8: for a token-transfer notification to an initialized contract the
forward payload is selected by the one-bit discriminator (the same payload
`⟨fbits, frefs⟩` whether carried inline or as a referenced cell), and the
deposit path fails with `InsufficientBits` when the payload has fewer than
32 bits, with `InvalidForwardOp` when its leading 32-bit code is not
`DEPOSIT_NOTIFICATION`, with `InvalidAmount` when the decoded
depositAmount differs from the notified amount, with `NoRefs` when fewer
than two reference cells are attached, and only otherwise creates the
swap. -/
theorem claim_C8 (H : Nat → Nat) (rand now mv q cv fwc fa : Nat) (isRef : Bool)
    (fbits : List Bool) (frefs : List TCell) (st : ContractState)
    (f_op depAmt dwc da rwc ra hl tl : Nat)
    (fr restBits r1rest : List Bool) (r1refs : List TCell)
    (r2rest : List Bool) (r2refs moreRefs : List TCell)
    (hinit : st.ctx_initialized = true) (hq : q < 2 ^ 64) (hcv : cv < 2 ^ 8) :
    (fbits.length < 32 →
        recv_internal H rand now mv (mkJettonMsg q cv fwc fa isRef fbits frefs) st =
          .error ERR_INSUFFICIENT_BITS) ∧
    (fbits = natToBits 32 f_op ++ fr → f_op < 2 ^ 32 →
        f_op ≠ OP_DEPOSIT_NOTIFICATION →
        recv_internal H rand now mv (mkJettonMsg q cv fwc fa isRef fbits frefs) st =
          .error ERR_INVALID_FORWARD_OP) ∧
    (fbits = natToBits 32 OP_DEPOSIT_NOTIFICATION ++ (natToBits 128 depAmt ++ restBits) →
        depAmt < 2 ^ 128 → depAmt ≠ cv →
        recv_internal H rand now mv (mkJettonMsg q cv fwc fa isRef fbits frefs) st =
          .error ERR_INVALID_AMOUNT) ∧
    (fbits = natToBits 32 OP_DEPOSIT_NOTIFICATION ++
        (natToBits 128 cv ++ (stdAddr dwc da ++ restBits)) →
        frefs.length < 2 →
        recv_internal H rand now mv (mkJettonMsg q cv fwc fa isRef fbits frefs) st =
          .error ERR_NO_REFS) ∧
    (fbits = natToBits 32 OP_DEPOSIT_NOTIFICATION ++
        (natToBits 128 cv ++ (stdAddr dwc da ++ restBits)) →
        frefs = TCell.mk (stdAddr rwc ra ++ r1rest) r1refs ::
          TCell.mk (natToBits 256 hl ++ (natToBits 64 tl ++ r2rest)) r2refs :: moreRefs →
        hl < 2 ^ 256 → tl < 2 ^ 64 →
        recv_internal H rand now mv (mkJettonMsg q cv fwc fa isRef fbits frefs) st =
          .ok (storeSwap (stdAddr dwc da) (stdAddr rwc ra) cv hl tl st, none)) := by
  refine ⟨?_, ?_, ?_, ?_, ?_⟩
  · intro hlen
    rw [recv_internal_jetton hinit hq hcv, if_pos hlen]
  · intro hf hf32 hne
    rw [hf]
    rw [recv_internal_jetton hinit hq hcv]
    rw [if_neg (show ¬ ((natToBits 32 f_op ++ fr).length < 32) by
      simp only [List.length_append, natToBits_length]
      omega)]
    rw [loadUint_encoded hf32 fr frefs]
    simp only []
    rw [if_pos hne]
  · intro hf hdep hne
    rw [hf]
    rw [recv_internal_jetton hinit hq hcv]
    rw [if_neg (show
      ¬ ((natToBits 32 OP_DEPOSIT_NOTIFICATION ++ (natToBits 128 depAmt ++ restBits)).length < 32) by
      simp only [List.length_append, natToBits_length]
      omega)]
    rw [loadUint_encoded (by decide : OP_DEPOSIT_NOTIFICATION < 2 ^ 32)
      (natToBits 128 depAmt ++ restBits) frefs]
    simp only []
    rw [if_neg (not_not_intro rfl),
      depositNotification_amount_mismatch restBits frefs hinit hdep hne]
    rfl
  · intro hf hrefs
    rw [hf]
    rw [recv_internal_jetton hinit hq hcv]
    rw [if_neg (show
      ¬ ((natToBits 32 OP_DEPOSIT_NOTIFICATION ++
          (natToBits 128 cv ++ (stdAddr dwc da ++ restBits))).length < 32) by
      simp only [List.length_append, natToBits_length]
      omega)]
    rw [loadUint_encoded (by decide : OP_DEPOSIT_NOTIFICATION < 2 ^ 32)
      (natToBits 128 cv ++ (stdAddr dwc da ++ restBits)) frefs]
    simp only []
    rw [if_neg (not_not_intro rfl),
      depositNotification_norefs restBits frefs hinit
        (lt_trans hcv (by norm_num)) hrefs]
    rfl
  · intro hf hr hhl htl
    rw [hf, hr]
    rw [recv_internal_jetton hinit hq hcv]
    rw [if_neg (show
      ¬ ((natToBits 32 OP_DEPOSIT_NOTIFICATION ++
          (natToBits 128 cv ++ (stdAddr dwc da ++ restBits))).length < 32) by
      simp only [List.length_append, natToBits_length]
      omega)]
    rw [loadUint_encoded (by decide : OP_DEPOSIT_NOTIFICATION < 2 ^ 32)
      (natToBits 128 cv ++ (stdAddr dwc da ++ restBits)) _]
    simp only []
    rw [if_neg (not_not_intro rfl),
      @depositNotification_success cv dwc da rwc ra hl tl restBits r1rest r1refs
        r2rest r2refs moreRefs st hinit (lt_trans hcv (by norm_num)) hhl htl]
    rfl

/-- C8 witness: a fully valid inline deposit notification creates the
swap. -/
theorem claim_C8_witness :
    recv_internal (fun n => n) 0 0 0 (mkJettonMsg 0 100 0 9 false dep1Fbits dep1Refs)
      stInit = .ok (storeSwap (stdAddr 0 2) (stdAddr 0 3) 100 5 1000 stInit, none) := by
  have h := claim_C8 (fun n => n) 0 0 0 0 100 0 9 false dep1Fbits dep1Refs stInit
    0 0 0 2 0 3 5 1000 [] [] [] [] [] [] []
    rfl (by norm_num) (by norm_num)
  exact h.2.2.2.2 rfl rfl (by norm_num) (by norm_num)

/-- C9: an inbound message to an initialized contract whose non-empty body
starts with a 32-bit operation code that is none of `INITIALIZE`,
`COMPLETE_SWAP`, `REFUND_SWAP` or the token-transfer-notification code is a
no-op: no error, no outbound message, and the persisted state is exactly
unchanged. -/
theorem claim_C9 (H : Nat → Nat) (rand now mv op : Nat) (body rest : Slice)
    (st : ContractState)
    (hinit : st.ctx_initialized = true)
    (hload : loadUint body 32 = some (op, rest))
    (h1 : op ≠ OP_INITIALIZE) (h2 : op ≠ OP_COMPLETE_SWAP)
    (h3 : op ≠ OP_REFUND_SWAP) (h4 : op ≠ OP_JETTON_NOTIFY) :
    recv_internal H rand now mv body st = .ok (st, none) := by
  unfold recv_internal
  rw [if_neg (by
    rw [sliceEmpty_false_of_loadUint hload]
    exact fun hc => Bool.noConfusion hc)]
  rw [hload]
  simp only []
  rw [if_neg h1, if_neg (by rw [hinit]; exact fun hc => Bool.noConfusion hc),
    if_neg h2, if_neg h3, if_neg h4]

/-- C9 witness: operation code 99 against `stInit` is ignored with the
state unchanged. -/
theorem claim_C9_witness :
    recv_internal (fun n => n) 0 0 0 (⟨natToBits 32 99, []⟩ : Slice) stInit =
      .ok (stInit, none) :=
  claim_C9 (fun n => n) 0 0 0 99 ⟨natToBits 32 99, []⟩ ⟨[], []⟩ stInit rfl
    (loadUint_encoded_exact (by norm_num) []) (by decide) (by decide) (by decide)
    (by decide)

/-- C10: loading pristine storage never errors and yields the zero state —
`initialized = false`, `swapCounter = 0`, `instanceId = 0`, both maps
empty — except that `tokenWallet` is set to the contract's own address, so
`get_jetton_wallet` on a never-initialized contract returns the contract's
own (in particular non-empty) address. -/
theorem claim_C10 (myAddr : Addr) :
    load_data myAddr none = ⟨0, myAddr, 0, [], [], false⟩ ∧
    is_initialized (load_data myAddr none) = false ∧
    get_id (load_data myAddr none) = 0 ∧
    get_swap_counter (load_data myAddr none) = 0 ∧
    (load_data myAddr none).ctx_swaps = [] ∧
    (load_data myAddr none).ctx_hashlock_map = [] ∧
    get_jetton_wallet (load_data myAddr none) = myAddr ∧
    (myAddr.isEmpty = false →
        (get_jetton_wallet (load_data myAddr none)).isEmpty = false) :=
  ⟨rfl, rfl, rfl, rfl, rfl, rfl, rfl, fun h => h⟩

/-- C10 witness: with the standard address `stdAddr 0 1` as the contract's
own address, the getter on pristine storage returns that (non-empty)
address. -/
theorem claim_C10_witness :
    (stdAddr 0 1).isEmpty = false ∧
    (get_jetton_wallet (load_data (stdAddr 0 1) none)).isEmpty = false := by
  have h := claim_C10 (stdAddr 0 1)
  exact ⟨stdAddr_ne_nil 0 1, h.2.2.2.2.2.2.2 (stdAddr_ne_nil 0 1)⟩

end TonEscrow
